import Mathlib

/-!
Verification of the Broker Gateway Adapter of the TradingHub repository.

The adapter's source is TypeScript; this file is a shallow embedding of the
functions the claims are about:

* the enhanced adapter class (`src/unnamed/part_002`): `parseOrderResponse`,
  `findMatchingSymbol`, `getPositions`, `sendOrder`, `closePosition`,
  `connect`, `disconnect`, `setToken`, `clearToken`, and friends;
* the duplicate implementations (`src/src/lib/mt5ApiService.ts`,
  `src/unnamed/part_001`): `executeTrade` and the simple `closePosition`.

Modelling conventions:

* decoded HTTP bodies are modelled by the inductive `JSValue` (the shapes
  JSON decoding can produce); JavaScript numbers are modelled by `ℚ`
  (the claims under study concern orderings, equalities and tolerance
  comparisons, not binary floating-point rounding);
* JavaScript truthiness, property lookup, `parseInt`, `String.includes`,
  `toLowerCase` are embedded by the helpers below;
* `axios` calls are modelled by an `HttpOutcome` oracle: either a delivered
  response `(status, body)` or a thrown error carrying the error message and,
  when the server answered with a non-2xx status, that status and body
  (axios' default `validateStatus` turns every non-2xx answer into a throw);
* `localStorage` is modelled by the single key the adapter uses
  (`mt5_token`), as an `Option String` inside `AdapterState`;
* a field read such as `pos.lots || 0` is embedded as "the numeric value of
  the field if it holds a non-zero number, the default otherwise"; truthy
  values of unexpected runtime type (a string where a number is typed) are
  outside the modelled corner of JavaScript coercion, and the exact decimal
  rendering of numbers inside diagnostic strings is not modelled.
-/

namespace MT5

/-- A decoded JavaScript value, the shapes a JSON body can take (plus
`undefined`, which the adapter checks for explicitly). -/
inductive JSValue where
  | undef
  | null
  | bool (b : Bool)
  | num (q : ℚ)
  | str (s : String)
  | obj (fields : List (String × JSValue))
  | arr (elems : List JSValue)

/-- JavaScript truthiness of a value. -/
def truthy : JSValue → Bool
  | .undef => false
  | .null => false
  | .bool b => b
  | .num q => q ≠ 0
  | .str s => s ≠ ""
  | .obj _ => true
  | .arr _ => true

/-- Property lookup on an object literal (`'k' in o` / `o.k`). -/
def lookupField (fields : List (String × JSValue)) (k : String) : Option JSValue :=
  (fields.find? (fun p => p.1 = k)).map Prod.snd

/-- `hay.includes(needle)` on `Char` lists. -/
def containsSub (hay needle : List Char) : Bool :=
  if needle.isPrefixOf hay then true
  else
    match hay with
    | [] => false
    | _ :: t => containsSub t needle

/-- JavaScript `hay.includes(needle)` on strings. -/
def strContains (hay needle : String) : Bool :=
  containsSub hay.toList needle.toList

/-- JavaScript `s.toLowerCase()` (character-list implementation; the
library `String.toLower` does not reduce in the kernel). -/
def strToLower (s : String) : String := ⟨s.data.map Char.toLower⟩

/-- `s.endsWith(post)` (character-list implementation). -/
def strEndsWith (s post : String) : Bool :=
  post.data.reverse.isPrefixOf s.data.reverse

/-- Multiplication on `ℚ` through `mkRat`.  The standard `Rat.mul` is marked
irreducible in this toolchain, which blocks kernel evaluation of concrete
runs; `qMul` is definitionally transparent and provably equal to `(* )`
(`qMul_eq` below). -/
def qMul (a b : ℚ) : ℚ := mkRat (a.num * b.num) (a.den * b.den)

/-- Subtraction on `ℚ` through `mkRat`; provably equal to `(- )`
(`qSub_eq` below). -/
def qSub (a b : ℚ) : ℚ :=
  mkRat (a.num * (b.den : Int) - b.num * (a.den : Int)) (a.den * b.den)

/-- Absolute value on `ℚ` by sign inspection; provably equal to `|.|`
(`qAbs_eq` below). -/
def qAbs (a : ℚ) : ℚ := if a.num < 0 then Rat.neg a else a

/-- Value of a non-empty digit sequence, `none` when no leading digit. -/
def digitsVal (cs : List Char) : Option Nat :=
  let ds := cs.takeWhile Char.isDigit
  if ds.isEmpty then none
  else some (ds.foldl (fun a c => a * 10 + (c.toNat - 48)) 0)

/-- JavaScript `parseInt(s, 10)`: leading whitespace, optional sign, leading
decimal digits; `none` models `NaN`. -/
def parseIntStr (s : String) : Option Int :=
  let cs := s.toList.dropWhile (fun c => c = ' ' ∨ c = '\t' ∨ c = '\n' ∨ c = '\r')
  match cs with
  | '-' :: rest => (digitsVal rest).map (fun n => -(n : Int))
  | '+' :: rest => (digitsVal rest).map (fun n => (n : Int))
  | rest => (digitsVal rest).map (fun n => (n : Int))

/-- Truncation of a rational toward zero (`parseInt` applied to a number). -/
def jsTruncQ (q : ℚ) : Int := Int.tdiv q.num q.den

/-- JavaScript `parseInt` applied to an arbitrary value; `none` models `NaN`. -/
def jsParseIntOfVal : JSValue → Option Int
  | .num q => some (jsTruncQ q)
  | .str s => parseIntStr s
  | _ => none

/-- Rendering of a value into a diagnostic string (`template ${v}` /
string-typed fields holding a truthy value).  The exact JavaScript number
formatting is not reproduced; no claim depends on it. -/
def jsDisplay : JSValue → String
  | .undef => "undefined"
  | .null => "null"
  | .bool b => if b then "true" else "false"
  | .num q => toString q
  | .str s => s
  | .obj _ => "[object Object]"
  | .arr _ => ""

/-- A `||`-chain over string-ish fields:
`o.k1 || o.k2 || ... || fallback`. -/
def fieldOrStr (fields : List (String × JSValue)) : List String → String → String
  | [], fallback => fallback
  | k :: rest, fallback =>
      match lookupField fields k with
      | some v => if truthy v then jsDisplay v else fieldOrStr fields rest fallback
      | none => fieldOrStr fields rest fallback

/-- A `||`-chain over number-typed fields ending in `0`:
`o.k1 || o.k2 || 0`. -/
def fieldOrNum (fields : List (String × JSValue)) : List String → ℚ
  | [] => 0
  | k :: rest =>
      match lookupField fields k with
      | some (.num q) => if q = 0 then fieldOrNum fields rest else q
      | _ => fieldOrNum fields rest

/-- `a || b` on an optional number (`undefined` and `0` both fall through). -/
def jsOrQ (a : Option ℚ) (b : ℚ) : ℚ :=
  match a with
  | some q => if q = 0 then b else q
  | none => b

/-- The result record of `parseOrderResponse`
(`{ retcode: number; order?: number; comment: string }`; the `orderData`
pass-through field carries no information the claims use). -/
structure OrderResult where
  retcode : ℚ
  order : Option ℚ
  comment : String
deriving DecidableEq

/-- `const retcode = parseInt(responseData.retcode) || responseData.retcode`:
either the parsed non-zero integer, or the raw field value. -/
def effRetcode (v : JSValue) : Sum Int JSValue :=
  match jsParseIntOfVal v with
  | some n => if n = 0 then Sum.inr v else Sum.inl n
  | none => Sum.inr v

/-- `retcode === 10009 || retcode === '10009'` on the effective retcode. -/
def retIsSuccess : Sum Int JSValue → Bool
  | .inl n => n = 10009
  | .inr (.num q) => q = 10009
  | .inr (.str s) => s = "10009"
  | .inr _ => false

/-- `parseInt(retcode) || 10004` in the failing retcode branch. -/
def retFailCode : Sum Int JSValue → ℚ
  | .inl n => (n : ℚ)
  | .inr v =>
      match jsParseIntOfVal v with
      | some n => if n = 0 then 10004 else (n : ℚ)
      | none => 10004

/-- Rendering of the effective retcode inside the fallback comment. -/
def retDisplay : Sum Int JSValue → String
  | .inl n => toString n
  | .inr v => jsDisplay v

/-- `v === true || v === 'true'` (the `success` field check). -/
def isSuccessTrue : JSValue → Bool
  | .bool true => true
  | .str s => s = "true"
  | _ => false

/-- The object-shaped branch of `parseOrderResponse` (`typeof data ===
'object'`), the `if`-chain over `ticket` / `retcode` / `success` / `error` /
`message` / `order`, defaulting to assume-success. -/
def parseOrderObj (fields : List (String × JSValue)) (operation : String) : OrderResult :=
  match lookupField fields "ticket" with
  | some (.num q) =>
      if q > 0 then
        ⟨10009, some q, fieldOrStr fields ["message", "comment"] (operation ++ " successful")⟩
      else parseOrderObjRet fields operation
  | _ => parseOrderObjRet fields operation
where
  /-- the `retcode` check and everything after it -/
  parseOrderObjRet (fields : List (String × JSValue)) (operation : String) : OrderResult :=
    match lookupField fields "retcode" with
    | some rv =>
        let r := effRetcode rv
        if retIsSuccess r then
          ⟨10009, some (fieldOrNum fields ["order", "ticket"]),
            fieldOrStr fields ["comment", "message"] (operation ++ " successful")⟩
        else
          ⟨retFailCode r, none,
            fieldOrStr fields ["comment", "message"]
              (operation ++ " failed with retcode: " ++ retDisplay r)⟩
    | none => parseOrderObjSuccess fields operation
  /-- the `success` check and everything after it -/
  parseOrderObjSuccess (fields : List (String × JSValue)) (operation : String) : OrderResult :=
    match lookupField fields "success" with
    | some sv =>
        if isSuccessTrue sv then
          ⟨10009, some (fieldOrNum fields ["order", "ticket"]),
            fieldOrStr fields ["message", "comment"] (operation ++ " successful")⟩
        else
          ⟨10004, none, fieldOrStr fields ["message", "comment"] (operation ++ " failed")⟩
    | none => parseOrderObjError fields operation
  /-- the `error` / `Error` check and everything after it -/
  parseOrderObjError (fields : List (String × JSValue)) (operation : String) : OrderResult :=
    if (lookupField fields "error").isSome ∨ (lookupField fields "Error").isSome then
      let e := fieldOrStr fields ["error", "Error"] ""
      ⟨10004, none, if e = "" then operation ++ " failed" else e⟩
    else parseOrderObjMessage fields operation
  /-- the keyword scan of a string `message` field and everything after it -/
  parseOrderObjMessage (fields : List (String × JSValue)) (operation : String) : OrderResult :=
    match lookupField fields "message" with
    | some (.str m) =>
        let lower := strToLower m
        if strContains lower "success" ∨ strContains lower "executed" ∨
            strContains lower "placed" then
          ⟨10009, some (fieldOrNum fields ["order", "ticket"]), m⟩
        else if strContains lower "error" ∨ strContains lower "failed" ∨
            strContains lower "invalid" then
          ⟨10004, none, m⟩
        else parseOrderObjOrder fields operation
    | _ => parseOrderObjOrder fields operation
  /-- the trailing `order` check and the assume-success default -/
  parseOrderObjOrder (fields : List (String × JSValue)) (operation : String) : OrderResult :=
    match lookupField fields "order" with
    | some (.num q) =>
        if q > 0 then
          ⟨10009, some q, fieldOrStr fields ["comment", "message"] (operation ++ " successful")⟩
        else ⟨10009, none, operation ++ " completed (unrecognized response format)"⟩
    | _ => ⟨10009, none, operation ++ " completed (unrecognized response format)"⟩

/-- The string-shaped branch of `parseOrderResponse`. -/
def parseOrderStr (s : String) (operation : String) : OrderResult :=
  match parseIntStr s with
  | some n =>
      if n > 0 then ⟨10009, some (n : ℚ), operation ++ " successful"⟩
      else parseOrderStrKeywords s
  | none => parseOrderStrKeywords s
where
  parseOrderStrKeywords (s : String) : OrderResult :=
    let lower := strToLower s
    if strContains lower "success" ∨ strContains lower "executed" ∨
        strContains lower "placed" ∨ lower = "ok" ∨ lower = "true" then
      ⟨10009, none, s⟩
    else if strContains lower "error" ∨ strContains lower "failed" ∨
        strContains lower "invalid" ∨ strContains lower "denied" then
      ⟨10004, none, s⟩
    else ⟨10009, none, s⟩

/-- The Response Normalizer `parseOrderResponse(responseData, operation)` of
the enhanced adapter: classifies an arbitrary decoded body into a tagged
result (`retcode` 10009 is the success tag).  An array body goes through the
object branch (`typeof [] === 'object'`) where every named-property check
fails, landing on the assume-success default. -/
def parseOrderResponse (responseData : JSValue) (operation : String) : OrderResult :=
  match responseData with
  | .null => ⟨10009, none, operation ++ " completed successfully"⟩
  | .undef => ⟨10009, none, operation ++ " completed successfully"⟩
  | .obj fields => parseOrderObj fields operation
  | .arr _ => parseOrderObj [] operation
  | .str s => parseOrderStr s operation
  | .num q =>
      if q > 0 then ⟨10009, some q, operation ++ " successful"⟩
      else if q = 0 then ⟨10009, none, operation ++ " completed"⟩
      else ⟨qAbs q, none, operation ++ " failed with code: " ++ toString q⟩
  | .bool b =>
      if b then ⟨10009, none, operation ++ " successful"⟩
      else ⟨10004, none, operation ++ " failed"⟩

/-- The outcome of one `axios` call: a delivered response, or a thrown error
carrying `error.message` and, when the server answered (non-2xx status),
`error.response` as `(status, data)`.  Axios' default `validateStatus`
delivers only 2xx responses; every other completed request throws. -/
inductive HttpOutcome where
  | resp (status : Nat) (body : JSValue)
  | err (message : String) (code : Option String) (response : Option (Nat × JSValue))

/-- `status === 200 || status === 201`. -/
def ok2xx (st : Nat) : Bool := st = 200 ∨ st = 201

/-- The mutable state of the enhanced adapter: the in-memory `token`, the
`mt5_token` key of `localStorage` (`store`), and a generation counter for the
underlying axios client (bumped when the client is recreated). -/
structure AdapterState where
  token : Option String
  store : Option String
  clientGen : Nat
deriving DecidableEq

/-- `clearToken()`: clears the in-memory token and removes `mt5_token`. -/
def clearTokenM (s : AdapterState) : AdapterState :=
  { s with token := none, store := none }

/-- `setToken(t)`: sets the in-memory token and persists it. -/
def setTokenM (s : AdapterState) (t : String) : AdapterState :=
  { s with token := some t, store := some t }

/-- The constructor: restores the token from `localStorage` when the stored
value is truthy (a non-empty string); the client is fresh. -/
def constructM (s : AdapterState) : AdapterState :=
  { token := match s.store with
             | some t => if t = "" then none else some t
             | none => none
    store := s.store
    clientGen := 0 }

/-- `getStoredToken()`. -/
def getStoredToken (s : AdapterState) : Option String := s.store

/-- The auth-failure test repeated in the catch blocks:
`error.message.includes('Authentication failed') || ...('Session expired') ||
...('Invalid token') || error.response?.status === 401`. -/
def isAuthError (msg : String) (response : Option (Nat × JSValue)) : Bool :=
  strContains msg "Authentication failed" ∨ strContains msg "Session expired" ∨
    strContains msg "Invalid token" ∨ (response.map Prod.fst) = some 401

/-- `a || b` on strings (the `error.message || fallback` pattern). -/
def jsOrStr (a b : String) : String := if a = "" then b else a

/-- `disconnect()`: when a token is held, a best-effort `/Disconnect` call is
awaited inside the `try`; a throw there reaches the `catch`, which returns
`false` without touching the token, the store or the client.  Otherwise both
tokens are cleared, the axios client is recreated and `true` is returned. -/
def disconnectM (s : AdapterState) (out : HttpOutcome) : AdapterState × Bool :=
  match s.token with
  | none =>
      ({ token := none, store := none, clientGen := s.clientGen + 1 }, true)
  | some _ =>
      match out with
      | .resp _ _ =>
          ({ token := none, store := none, clientGen := s.clientGen + 1 }, true)
      | .err _ _ _ => (s, false)

/-- `checkConnection()`: false without a token; otherwise true iff the
`/CheckConnect` call delivers a 2xx response (throws become false). -/
def checkConnectionM (s : AdapterState) (out : HttpOutcome) : Bool :=
  match s.token with
  | none => false
  | some _ =>
      match out with
      | .resp st _ => ok2xx st
      | .err _ _ _ => false

/-- A position record as produced by `getPositions` (display volume in
`volume` = the bridge's `lots` field, bridge-native volume in `rawVolume`). -/
structure Position where
  ticket : ℚ
  symbol : String
  type_ : String
  volume : ℚ
  rawVolume : ℚ
  openPrice : ℚ
  currentPrice : ℚ
  profit : ℚ
  swap : ℚ
  commission : ℚ
  openTime : String
  comment : String
deriving DecidableEq

/-- `o.k || d` for a number-typed field. -/
def numFieldOr (fields : List (String × JSValue)) (k : String) (d : ℚ) : ℚ :=
  match lookupField fields k with
  | some (.num q) => if q = 0 then d else q
  | _ => d

/-- `o.k || d` for a string-typed field. -/
def strFieldOr (fields : List (String × JSValue)) (k : String) (d : String) : String :=
  match lookupField fields k with
  | some (.str t) => if t = "" then d else t
  | _ => d

/-- The array normalization of the `/OpenedOrders` body: an array is used as
is; a truthy object is unwrapped through `orders` / `data` / `positions` or
wrapped as a single record; a primitive yields no records. -/
def extractOrdersArray (body : JSValue) : List JSValue :=
  match body with
  | .arr l => l
  | .obj fs =>
      match lookupField fs "orders" with
      | some (.arr l) => l
      | _ =>
          match lookupField fs "data" with
          | some (.arr l) => l
          | _ =>
              match lookupField fs "positions" with
              | some (.arr l) => l
              | _ => [.obj fs]
  | _ => []

/-- `order.orderType === 'Buy' || order.orderType === 'Sell'` on a record. -/
def hasMarketOrderType (v : JSValue) : Bool :=
  match v with
  | .obj fs =>
      match lookupField fs "orderType" with
      | some (.str t) => t = "Buy" ∨ t = "Sell"
      | _ => false
  | _ => false

/-- `order && (order.orderType === 'Buy' || order.orderType === 'Sell')`. -/
def isMarketOrder (v : JSValue) : Bool :=
  truthy v ∧ hasMarketOrderType v

/-- The mapping of one raw order record into a `Position` (`lots` is the
display volume, `volume` the raw/native one). -/
def toPosition (v : JSValue) : Position :=
  let fs := match v with | .obj fields => fields | _ => []
  { ticket := numFieldOr fs "ticket" 0
    symbol := strFieldOr fs "symbol" ""
    type_ := strFieldOr fs "orderType" ""
    volume := numFieldOr fs "lots" 0
    rawVolume := numFieldOr fs "volume" 0
    openPrice := numFieldOr fs "openPrice" 0
    currentPrice := numFieldOr fs "closePrice" (numFieldOr fs "openPrice" 0)
    profit := numFieldOr fs "profit" 0
    swap := numFieldOr fs "swap" 0
    commission := numFieldOr fs "commission" 0
    openTime := strFieldOr fs "openTime" ""
    comment := strFieldOr fs "comment" "" }

/-- The pure body-to-positions conversion of `getPositions`. -/
def parsePositions (body : JSValue) : List Position :=
  ((extractOrdersArray body).filter isMarketOrder).map toPosition

/-- `getPositions()`: `.ok` results model normal completion (`[]` without a
token or on an unusable body), `.error` models the rethrown failure; an auth
failure (401 or textual) clears the session first. -/
def getPositionsM (s : AdapterState) (out : HttpOutcome) :
    AdapterState × Except String (List Position) :=
  match s.token with
  | none => (s, .ok [])
  | some _ =>
      match out with
      | .resp st body =>
          if ok2xx st ∧ truthy body then (s, .ok (parsePositions body))
          else (s, .ok [])
      | .err msg _ response =>
          let s1 := if isAuthError msg response then clearTokenM s else s
          (s1, .error (jsOrStr msg "Failed to retrieve positions"))

/-- The `/SymbolList` body conversion: an array keeps its string elements; a
string is split on newlines and commas, trimmed, empties dropped. -/
def parseSymbolList (body : JSValue) : List String :=
  match body with
  | .arr l => l.filterMap (fun v => match v with | .str t => some t | _ => none)
  | .str t =>
      ((t.split (fun c => c = '\n' ∨ c = ',')).map String.trim).filter (fun u => u ≠ "")
  | _ => []

/-- `getSymbols()`: like `getPositions`, rethrows on transport failure after
clearing the session on an auth failure. -/
def getSymbolsM (s : AdapterState) (out : HttpOutcome) :
    AdapterState × Except String (List String) :=
  match s.token with
  | none => (s, .ok [])
  | some _ =>
      match out with
      | .resp st body =>
          if ok2xx st ∧ truthy body then (s, .ok (parseSymbolList body))
          else (s, .ok [])
      | .err msg _ response =>
          let s1 := if isAuthError msg response then clearTokenM s else s
          (s1, .error (jsOrStr msg "Failed to retrieve symbols"))

/-- `subscribeSymbol(symbol)`: true iff the `/Subscribe` call delivers 2xx;
every throw (including the no-token throw) is caught and yields false. -/
def subscribeSymbolM (s : AdapterState) (out : HttpOutcome) : AdapterState × Bool :=
  match s.token with
  | none => (s, false)
  | some _ =>
      match out with
      | .resp st _ => (s, ok2xx st)
      | .err _ _ _ => (s, false)

/-- The known broker suffixes stripped by symbol normalization. -/
def brokerSuffixes : List String := ["raw", "m", "c", "pro", "ecn", "stp"]

/-- `baseSymbol.replace(/\.(raw|m|c|pro|ecn|stp)$/i, "")`: drops one known
suffix at the end, case-insensitively, keeping the prefix as written. -/
def normalizeSymbol (s : String) : String :=
  match brokerSuffixes.find? (fun sfx => strEndsWith (strToLower s) ("." ++ sfx)) with
  | some sfx => s.dropRight (sfx.length + 1)
  | none => s

/-- The symbol-resolution core of `findMatchingSymbol`, given the broker's
symbol list: empty-list bailout, exact match, normalized match, gold alias
scan, silver alias scan, then substring match in either direction. -/
def findMatchingSymbolPure (baseSymbol : String) (allSymbols : List String) :
    Option String :=
  let normalizedSymbol := normalizeSymbol baseSymbol
  if allSymbols.length = 0 then none
  else if allSymbols.contains baseSymbol then some baseSymbol
  else if allSymbols.contains normalizedSymbol then some normalizedSymbol
  else
    let goldResult :=
      if strContains normalizedSymbol "XAU" ∨ strContains normalizedSymbol "GOLD" then
        (allSymbols.filter (fun sym =>
          strContains (strToLower sym) "xau" ∨ strContains (strToLower sym) "gold")).head?
      else none
    match goldResult with
    | some c => some c
    | none =>
        let silverResult :=
          if strContains normalizedSymbol "XAG" ∨ strContains normalizedSymbol "SILVER" then
            (allSymbols.filter (fun sym =>
              strContains (strToLower sym) "xag" ∨
                strContains (strToLower sym) "silver")).head?
          else none
        match silverResult with
        | some c => some c
        | none =>
            (allSymbols.filter (fun sym =>
              strContains sym normalizedSymbol ∨ strContains normalizedSymbol sym)).head?

/-- `findMatchingSymbol(baseSymbol)`: fetches the symbol list (a throw there,
like the no-token throw, is caught and yields `none`, but any session
clearing performed by `getSymbols` persists) and resolves through
`findMatchingSymbolPure`. -/
def findMatchingSymbolM (s : AdapterState) (baseSymbol : String) (symOut : HttpOutcome) :
    AdapterState × Option String :=
  match s.token with
  | none => (s, none)
  | some _ =>
      let p := getSymbolsM s symOut
      match p.2 with
      | .error _ => (p.1, none)
      | .ok allSymbols => (p.1, findMatchingSymbolPure baseSymbol allSymbols)

/-- The result record of `connect`. -/
structure ConnectionResponse where
  success : Bool
  token : Option String
  message : String
deriving DecidableEq

/-- The credential-specific user-facing mapping applied to an error object
delivered by `/ConnectEx`. -/
def connectObjFriendly (errorCode errorMessage : String) : String :=
  if errorCode = "INVALID_ACCOUNT" ∨ strContains errorMessage "INVALID_ACCOUNT" then
    "Invalid account credentials. Please verify your account number, password, and server are correct."
  else if errorCode = "INVALID_PASSWORD" ∨ strContains errorMessage "INVALID_PASSWORD" then
    "Incorrect password. Please check your MT5 account password."
  else if errorCode = "INVALID_SERVER" ∨ strContains errorMessage "INVALID_SERVER" then
    "Invalid server. Please select the correct server for your broker."
  else if errorCode = "ACCOUNT_DISABLED" ∨ strContains errorMessage "ACCOUNT_DISABLED" then
    "Account is disabled. Please contact your broker to activate your account."
  else if errorCode = "CONNECTION_FAILED" ∨ strContains errorMessage "CONNECTION_FAILED" then
    "Failed to connect to broker server. Please check your internet connection and try again."
  else errorMessage

/-- The user-facing mapping applied to an error string delivered by
`/ConnectEx`. -/
def connectStrFriendly (responseData : String) : String :=
  let lower := strToLower responseData
  if strContains lower "invalid_account" ∨ strContains lower "invalid account" then
    "Invalid account credentials. Please verify your account number, password, and server are correct."
  else if strContains lower "invalid_password" ∨ strContains lower "invalid password" then
    "Incorrect password. Please check your MT5 account password."
  else if strContains lower "invalid_server" ∨ strContains lower "invalid server" then
    "Invalid server. Please select the correct server for your broker."
  else responseData

/-- The token-restoring loop over `['id','sessionId','connectionId',
'accessToken']` in the `success: true` object case: the first field holding a
string longer than 10 characters. -/
def firstTokenField (fields : List (String × JSValue)) : Option String :=
  (["id", "sessionId", "connectionId", "accessToken"].filterMap (fun k =>
    match lookupField fields k with
    | some (.str t) => if t.length > 10 then some t else none
    | _ => none)).head?

/-- The `token` field check of the object case: a string of length > 10 not
containing `INVALID` or `ERROR`. -/
def validTokenField (fields : List (String × JSValue)) : Option String :=
  match lookupField fields "token" with
  | some (.str t) =>
      if t.length > 10 ∧ ¬ strContains t "INVALID" ∧ ¬ strContains t "ERROR" then some t
      else none
  | _ => none

/-- `this.token = t; if (this.token) localStorage.setItem('mt5_token', t)`:
the paired store of a freshly received token (the guard skips persisting a
falsy, i.e. empty, token). -/
def storeTokenM (s : AdapterState) (t : String) : AdapterState :=
  { s with token := some t, store := if t = "" then s.store else some t }

/-- `connect(credentials)`: classification of the `/ConnectEx` outcome.  On a
2xx response the body is parsed by shape (object / string / number); every
success path stores the token in memory and in `localStorage`; failure paths
leave the state unchanged.  The credentials only parametrize the request and
are irrelevant to the response handling, so they are not modelled. -/
def connectM (s : AdapterState) (out : HttpOutcome) : AdapterState × ConnectionResponse :=
  match out with
  | .resp st body =>
      if ok2xx st then
        match body with
        | .obj fields =>
            match validTokenField fields with
            | some t =>
                (storeTokenM s t,
                 ⟨true, some t, fieldOrStr fields ["message"] "Connected successfully"⟩)
            | none =>
                if ((lookupField fields "error").isSome || (lookupField fields "code").isSome ||
                    (match lookupField fields "message" with
                     | some (.str _) => true | _ => false) : Bool) then
                  let errorMessage := fieldOrStr fields ["error", "message"] "Unknown error"
                  let errorCode := strFieldOr fields "code" "UNKNOWN_ERROR"
                  (s, ⟨false, none, connectObjFriendly errorCode errorMessage⟩)
                else
                  match lookupField fields "success" with
                  | some sv =>
                      if isSuccessTrue sv then
                        match firstTokenField fields with
                        | some t =>
                            (storeTokenM s t,
                             ⟨true, some t,
                              fieldOrStr fields ["message"] "Connected successfully"⟩)
                        | none =>
                            (s, ⟨false, none,
                              "Unexpected response format from MT5 API. Please try again."⟩)
                      else
                        (s, ⟨false, none,
                          "Unexpected response format from MT5 API. Please try again."⟩)
                  | none =>
                      (s, ⟨false, none,
                        "Unexpected response format from MT5 API. Please try again."⟩)
        | .str t =>
            let lower := strToLower t
            if strContains lower "invalid" ∨ strContains lower "error" ∨
                strContains lower "failed" ∨ strContains lower "denied" then
              (s, ⟨false, none, connectStrFriendly t⟩)
            else if t.length > 10 then
              (storeTokenM s t,
               ⟨true, some t, "Connected successfully"⟩)
            else
              (s, ⟨false, none, "Unexpected response format from MT5 API. Please try again."⟩)
        | .num q =>
            if q > 0 then
              ({ s with token := some (toString q), store := some (toString q) },
               ⟨true, some (toString q), "Connected successfully"⟩)
            else
              (s, ⟨false, none, "Unexpected response format from MT5 API. Please try again."⟩)
        | _ => (s, ⟨false, none, "Unexpected response format from MT5 API. Please try again."⟩)
      else
        (s, ⟨false, none, "Connection failed with HTTP status: " ++ toString st⟩)
  | .err msg code response =>
      let friendly :=
        if code = some "ECONNREFUSED" then
          "Cannot connect to MT5 API server. Please check your internet connection and try again."
        else if code = some "ETIMEDOUT" then
          "Connection timeout. Please check your internet connection and try again."
        else if (response.map Prod.fst) = some 404 then
          "MT5 API endpoint not found. Please contact support."
        else jsOrStr msg "Connection failed"
      (s, ⟨false, none, friendly⟩)

/-- The processed account-information record. -/
structure AccountInfo where
  balance : ℚ
  equity : ℚ
  margin : ℚ
  freeMargin : ℚ
  marginLevel : ℚ
  currency : String
  profit : ℚ
  credit : ℚ
  accountNumber : String
  accountName : String
  serverName : String
  leverage : ℚ
deriving DecidableEq

/-- The fields of an object body (`{}` for any other shape, matching the
behaviour of property reads on it). -/
def objFieldsOf (v : JSValue) : List (String × JSValue) :=
  match v with
  | .obj fs => fs
  | _ => []

/-- `getAccountInfo()`: `/AccountSummary` and `/AccountDetails` in parallel;
a `/AccountDetails` failure is replaced by an empty 404 response; a
`/AccountSummary` failure reaches the catch, which clears the session and
throws `Session expired` on an auth failure and rethrows otherwise. -/
def getAccountInfoM (s : AdapterState) (summary details : HttpOutcome) :
    AdapterState × Except String (Option AccountInfo) :=
  match s.token with
  | none => (s, .ok none)
  | some _ =>
      match summary with
      | .err msg _ response =>
          if isAuthError msg response then
            (clearTokenM s, .error "Session expired. Please login again.")
          else
            (s, .error (jsOrStr msg "Failed to retrieve account information"))
      | .resp st body =>
          if ok2xx st ∧ truthy body then
            let summaryData := objFieldsOf body
            let detailsData :=
              match details with
              | .resp st2 body2 => if ok2xx st2 then objFieldsOf body2 else []
              | .err _ _ _ => []
            (s, .ok (some
              { balance := numFieldOr summaryData "balance" 0
                equity := numFieldOr summaryData "equity" 0
                margin := numFieldOr summaryData "margin" 0
                freeMargin := numFieldOr summaryData "freeMargin" 0
                marginLevel := numFieldOr summaryData "marginLevel" 0
                currency := strFieldOr summaryData "currency" "USD"
                profit := numFieldOr summaryData "profit" 0
                credit := numFieldOr summaryData "credit" 0
                accountNumber :=
                  match lookupField detailsData "Login" with
                  | some (.num q) => toString q
                  | _ => ""
                accountName := strFieldOr detailsData "Name" ""
                serverName := strFieldOr detailsData "Server" ""
                leverage := numFieldOr detailsData "Leverage" 1 }))
          else (s, .ok none)

/-- A market quote (`time := none` models the `new Date().toISOString()`
fallback taken when the body has no truthy `time` field). -/
structure Quote where
  bid : ℚ
  ask : ℚ
  time : Option String
deriving DecidableEq

/-- `getQuote(symbol)`: symbol resolution and best-effort subscription first
(both may mutate the session via `getSymbols`), then `/GetQuote`; a throw
there clears the session on an auth failure and rethrows. -/
def getQuoteM (s : AdapterState) (symbol : String) (symOut subOut quoteOut : HttpOutcome) :
    AdapterState × Except String (Option Quote) :=
  match s.token with
  | none => (s, .ok none)
  | some _ =>
      let p := findMatchingSymbolM s symbol symOut
      let s1 := p.1
      let s2 := match p.2 with
        | some _ => (subscribeSymbolM s1 subOut).1
        | none => s1
      match quoteOut with
      | .resp st body =>
          if ok2xx st ∧ truthy body then
            let fs := objFieldsOf body
            match lookupField fs "bid", lookupField fs "ask" with
            | some (.num bid), some (.num ask) =>
                (s2, .ok (some ⟨bid, ask,
                  match lookupField fs "time" with
                  | some (.str t) => if t = "" then none else some t
                  | _ => none⟩))
            | _, _ => (s2, .ok none)
          else (s2, .ok none)
      | .err msg _ response =>
          let s3 := if isAuthError msg response then clearTokenM s2 else s2
          (s3, .error (jsOrStr msg "Failed to retrieve quote"))

/-- The request record accepted by the enhanced `sendOrder`. -/
structure OrderRequest where
  symbol : String
  action : String
  volume : ℚ
  price : Option ℚ
  sl : Option ℚ
  tp : Option ℚ
  comment : Option String

/-- The value placed in a request parameter holding the session token
(`null` when the in-memory token was cleared mid-operation). -/
def optStrVal : Option String → JSValue
  | some t => .str t
  | none => .null

/-- `if (o.x && o.x > 0) params.key = o.x`: the conditional append of one
positive optional numeric parameter. -/
def optParamPos (key : String) (o : Option ℚ) : List (String × JSValue) :=
  match o with
  | some p => if p ≠ 0 ∧ p > 0 then [(key, .num p)] else []
  | none => []

/-- `if (o.x) params.key = o.x`: the conditional append of one truthy
optional numeric parameter. -/
def optParamTruthy (key : String) (o : Option ℚ) : List (String × JSValue) :=
  match o with
  | some p => if p ≠ 0 then [(key, .num p)] else []
  | none => []

/-- The conditional append of one truthy optional string parameter. -/
def optParamStr (key : String) (o : Option String) : List (String × JSValue) :=
  match o with
  | some c => if c ≠ "" then [(key, .str c)] else []
  | none => []

/-- The parameter set built by the enhanced `sendOrder`: the mandatory
parameters, then `price` / `stoploss` / `takeprofit` only when defined and
positive (`orderRequest.x && orderRequest.x > 0`), then `comment` only when
truthy. -/
def sendOrderParams (token : Option String) (actualSymbol : String) (r : OrderRequest) :
    List (String × JSValue) :=
  [("id", optStrVal token), ("symbol", .str actualSymbol),
   ("operation", .str (if r.action = "BUY" then "Buy" else "Sell")),
   ("volume", .num r.volume), ("slippage", .num 10), ("expertID", .num 0)] ++
  optParamPos "price" r.price ++ optParamPos "stoploss" r.sl ++
  optParamPos "takeprofit" r.tp ++ optParamStr "comment" r.comment

/-- `sendOrder(orderRequest)`: resolve and subscribe the symbol, issue
`/OrderSend`, classify via `parseOrderResponse`; a transport throw is turned
into a 10004 outcome (never rethrown), clearing the session on an auth
failure.  Returns the new state, the outcome and the issued parameters. -/
def sendOrderM (s : AdapterState) (r : OrderRequest) (symOut subOut orderOut : HttpOutcome) :
    AdapterState × OrderResult × List (String × JSValue) :=
  match s.token with
  | none => (s, ⟨10004, none, "Not connected to MT5"⟩, [])
  | some _ =>
      let p := findMatchingSymbolM s r.symbol symOut
      let s1 := p.1
      let actualSymbol := p.2.getD r.symbol
      let s2 := match p.2 with
        | some _ => (subscribeSymbolM s1 subOut).1
        | none => s1
      let params := sendOrderParams s2.token actualSymbol r
      match orderOut with
      | .resp st body =>
          if ok2xx st then (s2, parseOrderResponse body "OrderSend", params)
          else (s2, ⟨10004, none, "Order failed with HTTP status: " ++ toString st⟩, params)
      | .err msg _ response =>
          let s3 := if isAuthError msg response then clearTokenM s2 else s2
          (s3, ⟨10004, none, jsOrStr msg "Failed to send order"⟩, params)

/-- One volume-encoding candidate (`VolumeFormatEntry`). -/
structure VolumeFormatEntry where
  value : ℚ
  description : String
deriving DecidableEq

/-- The dedup / bounding tolerance `0.000001`. -/
def tol : ℚ := mkRat 1 1000000

/-- `|a - b| < 0.000001` as a boolean. -/
def near (a b : ℚ) : Bool := qAbs (qSub a b) < tol

/-- `volumeFormats.some(v => Math.abs(v.value - x) < 0.000001)`. -/
def hasNear (l : List VolumeFormatEntry) (x : ℚ) : Bool :=
  l.any (fun f => near f.value x)

/-- The scaling factors applied to the display volume, in source order. -/
def scalingFactors : List (ℚ × String) :=
  [(1000, "Volume × 1000 (micro lots to units)"),
   (10000, "Volume × 10000 (mini lots to units)"),
   (100000, "Volume × 100000 (standard lots to units)"),
   (mkRat 1 1000, "Volume ÷ 1000 (units to micro lots)"),
   (mkRat 1 10000, "Volume ÷ 10000 (units to mini lots)"),
   (mkRat 1 100000, "Volume ÷ 100000 (units to standard lots)"),
   (10, "Volume × 10"),
   (100, "Volume × 100"),
   (mkRat 1 10, "Volume ÷ 10"),
   (mkRat 1 100, "Volume ÷ 100")]

/-- The scaling factors applied to the raw/native volume, in source order. -/
def rawScalingFactors : List ℚ :=
  [1000, mkRat 1 1000, 100, mkRat 1 100, 10, mkRat 1 10]

/-- The fallback absolute volumes used when no position detail is known. -/
def fallbackVolumes : List ℚ :=
  [mkRat 1 100, mkRat 1 10, 1, 10, 100, 1000, 10000, 100000]

/-- The push of one scaled candidate: appended only when inside
`(0, 1_000_000)` and not within `1e-6` of a candidate already collected. -/
def addScaledEntry (acc : List VolumeFormatEntry) (scaled : ℚ) (desc : String) :
    List VolumeFormatEntry :=
  if scaled > 0 ∧ scaled < 1000000 ∧ ¬ hasNear acc scaled then acc ++ [⟨scaled, desc⟩]
  else acc

/-- The head of the candidate list: the caller-supplied volume, when truthy
and positive (`volumeToClose && volumeToClose > 0`). -/
def volHead (volumeToClose : Option ℚ) : List VolumeFormatEntry :=
  match volumeToClose with
  | some v => if v ≠ 0 ∧ v > 0 then [⟨v, "Provided volume"⟩] else []
  | none => []

/-- Append of the position's display (`lots`) volume when positive. -/
def withLots (p : Position) (l : List VolumeFormatEntry) : List VolumeFormatEntry :=
  if p.volume > 0 then l ++ [⟨p.volume, "Position lots volume"⟩] else l

/-- Append of the position's raw volume when truthy and different from the
display volume. -/
def withRaw (p : Position) (l : List VolumeFormatEntry) : List VolumeFormatEntry :=
  if p.rawVolume ≠ 0 ∧ p.rawVolume ≠ p.volume then
    l ++ [⟨p.rawVolume, "Position raw volume"⟩]
  else l

/-- The scaled variants of the display volume (when positive). -/
def withScaled (p : Position) (l : List VolumeFormatEntry) : List VolumeFormatEntry :=
  if p.volume > 0 then
    scalingFactors.foldl (fun acc fd => addScaledEntry acc (qMul p.volume fd.1) fd.2) l
  else l

/-- The scaled variants of the raw volume (when truthy and positive). -/
def withRawScaled (p : Position) (l : List VolumeFormatEntry) : List VolumeFormatEntry :=
  if p.rawVolume ≠ 0 ∧ p.rawVolume > 0 then
    rawScalingFactors.foldl
      (fun acc f => addScaledEntry acc (qMul p.rawVolume f) ("Raw volume × " ++ toString f)) l
  else l

/-- The `volumeFormats` list built by the enhanced `closePosition`: the
caller-supplied volume (when truthy and positive), the position's display
(`lots`) volume, its raw volume when different, the scaled variants of the
display volume, the scaled variants of the raw volume, and the fixed
fallback list when nothing else was collected. -/
def buildVolumeFormats (volumeToClose : Option ℚ) (pd : Option Position) :
    List VolumeFormatEntry :=
  let l : List VolumeFormatEntry :=
    match pd with
    | some p => withRawScaled p (withScaled p (withRaw p (withLots p (volHead volumeToClose))))
    | none => volHead volumeToClose
  if l.isEmpty then fallbackVolumes.map (fun v => ⟨v, "Fallback volume " ++ toString v⟩)
  else l

/-- The final dedup pass: `volumeFormats.filter((format, index, self) =>
index === self.findIndex(f => Math.abs(f.value - format.value) < 1e-6))` —
an entry survives exactly when the first entry within `1e-6` of it is
itself. -/
def dedupFormats (l : List VolumeFormatEntry) : List VolumeFormatEntry :=
  (l.enum.filter (fun p => l.findIdx (fun g => near g.value p.2.value) == p.1)).map Prod.snd

/-- The full candidate list tried by the probe. -/
def uniqueFormats (volumeToClose : Option ℚ) (pd : Option Position) :
    List VolumeFormatEntry :=
  dedupFormats (buildVolumeFormats volumeToClose pd)

/-- The outcome record returned by the enhanced `closePosition` (absent
object fields are `none`). -/
structure CloseOutcome where
  retcode : ℚ
  ticket : Option ℚ
  comment : String
  volumeUsed : Option ℚ
  attemptNumber : Option Nat
  formatDescription : Option String
deriving DecidableEq

/-- One `/OrderClose` request as issued by the probe (`lots` is set only
for a positive candidate value). -/
structure CloseReq where
  id : Option String
  ticket : ℚ
  slippage : ℚ
  lots : Option ℚ
deriving DecidableEq

/-- The `/OrderClose` request issued for one candidate (`lots` only for a
positive candidate value). -/
def mkCloseReq (tok : Option String) (ticket : ℚ) (f : VolumeFormatEntry) : CloseReq :=
  ⟨tok, ticket, 10, if f.value > 0 then some f.value else none⟩

/-- `pats.some(p => hay.includes(p))`. -/
def anyContains (hay : String) (pats : List String) : Bool :=
  pats.any (fun p => strContains hay p)

/-- The response comments treated as "position already closed". -/
def alreadyClosedPatterns : List String :=
  ["position with the specified position_identifier has already been closed",
   "already been closed", "position not exists", "POSITION_NOT_EXISTS",
   "no such position", "not found"]

/-- The response comments treated as "invalid volume, try the next one". -/
def invalidVolumePatterns : List String :=
  ["invalid volume", "invalid lots", "wrong volume", "incorrect volume"]

/-- The thrown-error messages treated as "position already closed". -/
def errNotFoundPatterns : List String :=
  ["position not found", "already closed", "POSITION_NOT_EXISTS",
   "no such position", "not found"]

/-- The thrown-error messages treated as an authentication failure inside a
volume-candidate attempt.  Note: unlike the sibling catch blocks, this list
carries no `error.response?.status === 401` test. -/
def attemptAuthPhrases : List String :=
  ["Authentication failed", "Session expired", "Invalid token"]

/-- What one volume-candidate attempt does to the probe. -/
inductive AttemptResult where
  | stop (o : CloseOutcome)
  | next
  | authThrow (message : String) (response : Option (Nat × JSValue))

/-- One iteration of the probe loop body for candidate `fmt` at index `i`:
on a delivered 2xx response, classify via `parseOrderResponse`, then check
the already-closed comment patterns (terminate with Success), the
invalid-volume patterns (skip candidate), and the `retcode === 10009` tag
(terminate with Success and the candidate that worked); any other delivered
response or classification moves to the next candidate.  On a throw:
position-not-found messages terminate with Success, the three
authentication phrases abort the probe, anything else (including a bare
HTTP 401) moves to the next candidate. -/
def attemptStep (ticket : ℚ) (fmt : VolumeFormatEntry) (i : Nat) (out : HttpOutcome) :
    AttemptResult :=
  match out with
  | .resp st body =>
      if ok2xx st then
        let result := parseOrderResponse body "OrderClose"
        if result.comment ≠ "" ∧ anyContains result.comment alreadyClosedPatterns then
          .stop ⟨10009, some ticket, "Position already closed", some fmt.value,
                 some (i + 1), none⟩
        else if result.comment ≠ "" ∧ anyContains result.comment invalidVolumePatterns then
          .next
        else if result.retcode = 10009 then
          .stop ⟨10009, some (jsOrQ result.order ticket),
                 jsOrStr result.comment "Position closed successfully",
                 some fmt.value, some (i + 1), some fmt.description⟩
        else .next
      else .next
  | .err msg _ response =>
      if msg ≠ "" ∧ anyContains msg errNotFoundPatterns then
        .stop ⟨10009, some ticket, "Position already closed", some fmt.value,
               some (i + 1), none⟩
      else if msg ≠ "" ∧ anyContains msg attemptAuthPhrases then
        .authThrow msg response
      else .next

/-- How the probe loop ended. -/
inductive ProbeResult where
  | stopped (o : CloseOutcome)
  | auth (message : String) (response : Option (Nat × JSValue))
  | exhausted

/-- The probe loop over the candidate list: issues one `/OrderClose`
request per candidate (with `lots` for a positive value) strictly in list
order and reacts per `attemptStep`; returns the issued requests and how it
ended. -/
def probeLoop (tok : Option String) (ticket : ℚ) (attempts : Nat → HttpOutcome) :
    List VolumeFormatEntry → Nat → List CloseReq × ProbeResult
  | [], _ => ([], .exhausted)
  | f :: rest, i =>
      let req : CloseReq := mkCloseReq tok ticket f
      match attemptStep ticket f i (attempts i) with
      | .stop o => ([req], .stopped o)
      | .authThrow m r => ([req], .auth m r)
      | .next =>
          let p := probeLoop tok ticket attempts rest (i + 1)
          (req :: p.1, p.2)

/-- The probing phase of `closePosition` once position details (or their
absence) are known: build and dedup the candidates, run the loop; an
authentication abort clears the session (in the attempt catch) and is
re-caught by the outer catch, which returns a 10004 outcome; exhaustion
names how many formats were tried. -/
def closePositionProbe (s1 : AdapterState) (ticket : ℚ) (volumeToClose : Option ℚ)
    (pd : Option Position) (attempts : Nat → HttpOutcome) :
    AdapterState × CloseOutcome × List CloseReq :=
  let fmts := uniqueFormats volumeToClose pd
  let p := probeLoop s1.token ticket attempts fmts 0
  match p.2 with
  | .stopped o => (s1, o, p.1)
  | .auth m _ =>
      (clearTokenM s1,
       ⟨10004, none, jsOrStr m "Failed to close position", none, none, none⟩, p.1)
  | .exhausted =>
      (s1,
       ⟨10004, none,
        "Failed to close position " ++ toString ticket ++ " - tried " ++
          toString fmts.length ++ " different volume formats", none, none, none⟩, p.1)

/-- The enhanced `closePosition(ticket, volumeToClose?)`: no-token guard,
fresh `getPositions` (a throw there is caught and leaves the details
unknown, but its session clearing persists), the idempotent early Success
when the ticket is absent from the returned list, then the volume probe. -/
def closePositionM (s : AdapterState) (ticket : ℚ) (volumeToClose : Option ℚ)
    (posOutcome : HttpOutcome) (attempts : Nat → HttpOutcome) :
    AdapterState × CloseOutcome × List CloseReq :=
  match s.token with
  | none => (s, ⟨10004, none, "Not connected to MT5", none, none, none⟩, [])
  | some _ =>
      let gp := getPositionsM s posOutcome
      match gp.2 with
      | .ok positions =>
          match positions.find? (fun p => p.ticket == ticket) with
          | none =>
              (gp.1, ⟨10009, some ticket, "Position not found - may already be closed",
                      none, none, none⟩, [])
          | some pd => closePositionProbe gp.1 ticket volumeToClose (some pd) attempts
      | .error _ => closePositionProbe gp.1 ticket volumeToClose none attempts

/-- The parameter set built by the duplicate `executeTrade`
(`src/src/lib/mt5ApiService.ts`): `price` is always transmitted
(`price || 0`, the comment in the source reads `0 means market price`);
`sl` / `tp` / `comment` only when truthy. -/
def executeTradeParams (token symbol type_ : String) (volume : ℚ)
    (price stopLoss takeProfit : Option ℚ) (comment : Option String) :
    List (String × JSValue) :=
  [("id", .str token), ("symbol", .str symbol), ("volume", .num volume),
   ("type", .str (if type_ = "BUY" then "ORDER_TYPE_BUY" else "ORDER_TYPE_SELL")),
   ("price", .num (jsOrQ price 0)), ("slippage", .num 10)] ++
  optParamTruthy "sl" stopLoss ++ optParamTruthy "tp" takeProfit ++
  optParamStr "comment" comment

/-- The result record of the simple duplicate `closePosition`s. -/
structure SimpleCloseResult where
  success : Bool
  message : String
  retcode : ℚ
  profit : ℚ
  formatDescription : Option String
deriving DecidableEq

/-- The already-closed message patterns of the simple duplicates. -/
def simpleNotFoundPatterns : List String :=
  ["position not found", "already closed", "POSITION_NOT_EXISTS"]

/-- `volume ? a : b` on an optional number. -/
def jsOptTruthy (o : Option ℚ) : Bool :=
  match o with
  | some v => v ≠ 0
  | none => false

/-- The simple duplicate `closePosition` shared by
`src/src/lib/mt5ApiService.ts` (GET transport) and `src/unnamed/part_001`
(POST transport); the two bodies are otherwise identical.  The
position-profit capture that precedes the close call swallows all errors
and only sets `positionProfit`, so it enters the model as the
`positionProfit` argument.  A delivered response yields
`success: true, retcode: 10009` unconditionally, reading the body only for
an optional `profit` number; the catch turns string bodies matching the
already-closed patterns into Success and everything else into Failure. -/
def closePositionSimple (tokenPresent : Bool) (positionProfit : ℚ) (ticket : ℚ)
    (volume : Option ℚ) (out : HttpOutcome) : SimpleCloseResult :=
  if ¬ tokenPresent then
    ⟨false, "Not connected to MT5 API", 10004, 0, none⟩
  else
    match out with
    | .resp _ body =>
        let responseProfit : ℚ :=
          match body with
          | .obj fs =>
              match lookupField fs "profit" with
              | some (.num q) => q
              | _ => 0
          | _ => 0
        let finalProfit := if responseProfit ≠ 0 then responseProfit else positionProfit
        ⟨true, "Position " ++ toString ticket ++ " closed successfully", 10009, finalProfit,
         some (if jsOptTruthy volume then "with specified volume" else "with auto volume")⟩
    | .err msg _ response =>
        match response with
        | some (_, data) =>
            match data with
            | .str em =>
                if anyContains em simpleNotFoundPatterns then
                  ⟨true, "Position " ++ toString ticket ++ " was already closed", 10009, 0,
                   none⟩
                else ⟨false, em, 10004, 0, none⟩
            | _ => ⟨false, jsDisplay data, 10004, 0, none⟩
        | none => ⟨false, jsOrStr msg "Unknown error", 10004, 0, none⟩

/-- One public-method invocation of the enhanced adapter class, with the
transport outcomes it consumes. -/
inductive MethodCall where
  | construct
  | connect (out : HttpOutcome)
  | disconnect (out : HttpOutcome)
  | checkConnection (out : HttpOutcome)
  | getAccountInfo (summary details : HttpOutcome)
  | getSymbols (out : HttpOutcome)
  | subscribeSymbol (out : HttpOutcome)
  | findMatchingSymbol (baseSymbol : String) (symOut : HttpOutcome)
  | getPositions (out : HttpOutcome)
  | getQuote (symbol : String) (symOut subOut quoteOut : HttpOutcome)
  | sendOrder (r : OrderRequest) (symOut subOut orderOut : HttpOutcome)
  | closePosition (ticket : ℚ) (volumeToClose : Option ℚ)
      (posOutcome : HttpOutcome) (attempts : Nat → HttpOutcome)
  | setToken (t : String)
  | clearToken

/-- The session state reached after one public-method invocation (normal
completions and rethrowing completions alike end in this state). -/
def stepState (s : AdapterState) : MethodCall → AdapterState
  | .construct => constructM s
  | .connect out => (connectM s out).1
  | .disconnect out => (disconnectM s out).1
  | .checkConnection _ => s
  | .getAccountInfo a b => (getAccountInfoM s a b).1
  | .getSymbols out => (getSymbolsM s out).1
  | .subscribeSymbol out => (subscribeSymbolM s out).1
  | .findMatchingSymbol b out => (findMatchingSymbolM s b out).1
  | .getPositions out => (getPositionsM s out).1
  | .getQuote sym a b c => (getQuoteM s sym a b c).1
  | .sendOrder r a b c => (sendOrderM s r a b c).1
  | .closePosition t v p att => (closePositionM s t v p att).1
  | .setToken t => setTokenM s t
  | .clearToken => clearTokenM s

/-- The claimed agreement between the in-memory token and the persisted
`mt5_token` value: both absent, or both the same string. -/
def tokenStoreAgree (s : AdapterState) : Prop := s.token = s.store

/-- The agreement that actually holds: as claimed, except that an empty
persisted token (which `localStorage.getItem` reports as the falsy `""`)
behaves as absent for the constructor. -/
def tokenStoreAgreeUpTo (s : AdapterState) : Prop :=
  s.token = s.store ∨ (s.token = none ∧ s.store = some "")

/-- Fixture: an `/OpenedOrders` body holding one open Buy position with
ticket 1, display volume 0.01 lots and native volume 1. -/
def fixturePosBody : JSValue :=
  .arr [.obj [("ticket", .num 1), ("orderType", .str "Buy"),
              ("lots", .num (mkRat 1 100)), ("volume", .num 1), ("profit", .num 5)]]

/-- Fixture: a transport oracle whose every `/OrderClose` attempt throws the
axios error for a plain HTTP 401 (the default axios message carries no
`Authentication failed` / `Session expired` / `Invalid token` phrase). -/
def fixtureAtt401 : Nat → HttpOutcome :=
  fun _ => .err "Request failed with status code 401" none (some (401, .null))

/-- Fixture: a position record with display volume 1 lot. -/
def fixturePosVol1 : Position := ⟨1, "EURUSD", "Buy", 1, 1, 0, 0, 5, 0, 0, "", ""⟩

/-! ### Bridge lemmas: the computable rational operations agree with the
standard ones -/

theorem qMul_eq (a b : ℚ) : qMul a b = a * b := by
  rw [qMul, Rat.mkRat_eq_div]
  push_cast
  conv_rhs => rw [← Rat.num_div_den a, ← Rat.num_div_den b]
  rw [div_mul_div_comm]

theorem qSub_eq (a b : ℚ) : qSub a b = a - b := by
  rw [qSub, Rat.mkRat_eq_div]
  push_cast
  conv_rhs => rw [← Rat.num_div_den a, ← Rat.num_div_den b]
  rw [div_sub_div _ _ (by positivity) (by positivity)]
  congr 1
  ring

theorem qAbs_eq (a : ℚ) : qAbs a = |a| := by
  rw [qAbs]
  split
  · rw [abs_of_neg]
    · rfl
    · exact Rat.num_neg.mp (by assumption)
  · rw [abs_of_nonneg]
    exact Rat.num_nonneg.mp (by omega)

theorem near_iff (a b : ℚ) : near a b = true ↔ |a - b| < tol := by
  simp only [near, qSub_eq, qAbs_eq]
  exact decide_eq_true_iff

theorem tol_pos : (0 : ℚ) < tol := by decide

theorem near_self (a : ℚ) : near a a = true := by
  rw [near_iff]
  simpa using tol_pos

theorem near_symm (a b : ℚ) : near a b = near b a := by
  rw [Bool.eq_iff_iff, near_iff, near_iff, abs_sub_comm]

/-! ### C3 -/

/-- C3: an object body carrying both `retcode = 10009` and an `error` field
is classified Success — the retcode rule fires before the error rule. -/
theorem c3_retcode_beats_error :
    ∀ (fields : List (String × JSValue)) (op : String) (e : JSValue),
      lookupField fields "retcode" = some (.num 10009) →
      lookupField fields "error" = some e →
      (parseOrderResponse (.obj fields) op).retcode = 10009 := by
  intro fields op e hret herr
  have hr : retIsSuccess (effRetcode (.num 10009)) = true := by decide
  have hRet : (parseOrderObj.parseOrderObjRet fields op).retcode = 10009 := by
    unfold parseOrderObj.parseOrderObjRet
    rw [hret]
    simp only [hr, if_true]
  show (parseOrderObj fields op).retcode = 10009
  unfold parseOrderObj
  split
  · split
    · rfl
    · exact hRet
  · exact hRet

/-- C3 witness: the theorem at the concrete body of the spec's example. -/
theorem c3_retcode_beats_error_witness :
    (parseOrderResponse (.obj [("retcode", .num 10009), ("error", .str "x")])
        "OrderSend").retcode = 10009 :=
  c3_retcode_beats_error [("retcode", .num 10009), ("error", .str "x")] "OrderSend"
    (.str "x") rfl rfl

/-! ### C2 -/

/-- C2: idempotent close — when the fresh open-positions query succeeds and
the ticket is absent from the returned list, `closePosition` returns a
Success outcome (retcode 10009) immediately and issues no `/OrderClose`
request. -/
theorem c2_idempotent_close :
    ∀ (s : AdapterState) (tok : String) (ticket : ℚ) (vol : Option ℚ)
      (posOut : HttpOutcome) (attempts : Nat → HttpOutcome) (positions : List Position),
      s.token = some tok →
      getPositionsM s posOut = (s, .ok positions) →
      (∀ p ∈ positions, p.ticket ≠ ticket) →
      closePositionM s ticket vol posOut attempts =
        (s, ⟨10009, some ticket, "Position not found - may already be closed",
          none, none, none⟩, []) := by
  intro s tok ticket vol posOut attempts positions htok hpos habs
  have hfind : positions.find? (fun p => p.ticket == ticket) = none :=
    List.find?_eq_none.mpr (fun p hp => by simpa using habs p hp)
  simp only [closePositionM, htok, hpos, hfind]

/-- C2 witness: closing ticket 2 while the fresh list holds only ticket 1
returns Success with no request issued. -/
theorem c2_idempotent_close_witness :
    closePositionM ⟨some "tok", some "tok", 0⟩ 2 none (.resp 200 fixturePosBody)
        (fun _ => .resp 200 .null) =
      (⟨some "tok", some "tok", 0⟩,
       ⟨10009, some 2, "Position not found - may already be closed", none, none, none⟩,
       []) :=
  c2_idempotent_close ⟨some "tok", some "tok", 0⟩ "tok" 2 none
    (.resp 200 fixturePosBody) (fun _ => .resp 200 .null)
    (parsePositions fixturePosBody) rfl rfl (by decide)

/-! ### C4 -/

/-- C4 (code bug in the volume-probe attempt catch): the claim — backed by
the spec's "single point of truth for session invalidation" — requires every
operation path, including each volume-candidate attempt of `closePosition`,
to clear the stored token on HTTP 401.  The attempt catch only matches the
three textual phrases and, unlike every sibling catch in the file, omits
the `error.response?.status === 401` test, so a run whose every candidate
attempt throws the plain axios 401 error issues requests (ten here),
returns Failure, and leaves both the in-memory and the stored token in
place. -/
theorem c4_attempt_401_leaves_token :
    (closePositionM ⟨some "tok", some "tok", 0⟩ 1 none (.resp 200 fixturePosBody)
        fixtureAtt401).1 = ⟨some "tok", some "tok", 0⟩ ∧
      getStoredToken
          (closePositionM ⟨some "tok", some "tok", 0⟩ 1 none (.resp 200 fixturePosBody)
            fixtureAtt401).1 = some "tok" ∧
      (closePositionM ⟨some "tok", some "tok", 0⟩ 1 none (.resp 200 fixturePosBody)
          fixtureAtt401).2.1.retcode = 10004 ∧
      (closePositionM ⟨some "tok", some "tok", 0⟩ 1 none (.resp 200 fixturePosBody)
          fixtureAtt401).2.2.length = 10 := by
  decide

/-! ### C5 -/

/-- C5: symbol-resolution precedence — exact match of the raw symbol beats
the suffix-stripped normalized match, which beats the gold/silver alias
scan, which beats the general substring scan; in particular broker list
`["EURUSD", "EURUSD.raw"]` with input `"EURUSD.raw"` resolves to
`"EURUSD.raw"`. -/
theorem c5_symbol_resolution_precedence :
    ∀ (allSymbols : List String) (baseSymbol : String),
      (baseSymbol ∈ allSymbols →
        findMatchingSymbolPure baseSymbol allSymbols = some baseSymbol) ∧
      (baseSymbol ∉ allSymbols → normalizeSymbol baseSymbol ∈ allSymbols →
        findMatchingSymbolPure baseSymbol allSymbols = some (normalizeSymbol baseSymbol)) ∧
      (baseSymbol ∉ allSymbols → normalizeSymbol baseSymbol ∉ allSymbols →
        (strContains (normalizeSymbol baseSymbol) "XAU" = true ∨
          strContains (normalizeSymbol baseSymbol) "GOLD" = true) →
        allSymbols.filter (fun sym =>
          strContains (strToLower sym) "xau" ∨
            strContains (strToLower sym) "gold") ≠ [] →
        findMatchingSymbolPure baseSymbol allSymbols =
          (allSymbols.filter (fun sym =>
            strContains (strToLower sym) "xau" ∨
              strContains (strToLower sym) "gold")).head?) ∧
      findMatchingSymbolPure "EURUSD.raw" ["EURUSD", "EURUSD.raw"] = some "EURUSD.raw" := by
  intro allSymbols baseSymbol
  refine ⟨fun h => ?_, fun h1 h2 => ?_, fun h1 h2 h3 h4 => ?_, by decide⟩
  · have hlen : ¬ allSymbols.length = 0 := by
      intro h0
      rw [List.length_eq_zero] at h0
      subst h0
      exact absurd h (List.not_mem_nil baseSymbol)
    have hc : allSymbols.contains baseSymbol = true := List.elem_iff.mpr h
    rw [findMatchingSymbolPure, if_neg hlen, if_pos hc]
  · have hlen : ¬ allSymbols.length = 0 := by
      intro h0
      rw [List.length_eq_zero] at h0
      subst h0
      exact absurd h2 (List.not_mem_nil _)
    have hc1 : ¬ allSymbols.contains baseSymbol = true := fun hc =>
      absurd (List.elem_iff.mp hc) h1
    have hc2 : allSymbols.contains (normalizeSymbol baseSymbol) = true :=
      List.elem_iff.mpr h2
    rw [findMatchingSymbolPure, if_neg hlen, if_neg hc1, if_pos hc2]
  · have hlen : ¬ allSymbols.length = 0 := by
      intro h0
      rw [List.length_eq_zero] at h0
      subst h0
      simp at h4
    have hc1 : ¬ allSymbols.contains baseSymbol = true := fun hc =>
      absurd (List.elem_iff.mp hc) h1
    have hc2 : ¬ allSymbols.contains (normalizeSymbol baseSymbol) = true := fun hc =>
      absurd (List.elem_iff.mp hc) h2
    have h3b : (strContains (normalizeSymbol baseSymbol) "XAU" ∨
        strContains (normalizeSymbol baseSymbol) "GOLD" : Prop) := by
      rcases h3 with h | h
      · exact Or.inl h
      · exact Or.inr h
    rw [findMatchingSymbolPure, if_neg hlen, if_neg hc1, if_neg hc2]
    simp only [if_pos h3b]
    rcases hfl : allSymbols.filter (fun sym =>
        strContains (strToLower sym) "xau" ∨
          strContains (strToLower sym) "gold") with _ | ⟨c, rest⟩
    · exact absurd hfl h4
    · simp only [hfl, List.head?_cons]

/-- C5 witness: the theorem's exact-match clause at the spec's example, and
its alias clause resolving `XAUUSD` to `GOLD`. -/
theorem c5_symbol_resolution_precedence_witness :
    findMatchingSymbolPure "EURUSD.raw" ["EURUSD", "EURUSD.raw"] = some "EURUSD.raw" ∧
      findMatchingSymbolPure "XAUUSD" ["EURUSD", "GOLD"] = some "GOLD" :=
  ⟨(c5_symbol_resolution_precedence ["EURUSD", "EURUSD.raw"] "EURUSD.raw").1 (by decide),
   by
    have h := (c5_symbol_resolution_precedence ["EURUSD", "GOLD"] "XAUUSD").2.2.1
      (by decide) (by decide) (by decide) (by decide)
    simpa using h⟩

/-! ### C6 -/

/-- Membership characterization of the positive-optional-parameter block. -/
theorem mem_optParamPos {k key : String} {v : JSValue} {o : Option ℚ} :
    (k, v) ∈ optParamPos key o ↔ k = key ∧ ∃ p, o = some p ∧ p > 0 ∧ v = .num p := by
  rcases o with _ | p
  · simp [optParamPos]
  · rw [optParamPos]
    split
    · rename_i hcond
      simp only [List.mem_singleton, Prod.mk.injEq]
      constructor
      · rintro ⟨h1, h2⟩
        exact ⟨h1, p, rfl, hcond.2, h2⟩
      · rintro ⟨h1, p2, hp2, hpos, hv⟩
        injection hp2 with he
        subst he
        exact ⟨h1, hv⟩
    · rename_i hcond
      simp only [List.not_mem_nil, false_iff, not_and]
      rintro h1 ⟨p2, hp2, hpos, hv⟩
      injection hp2 with he
      subst he
      exact hcond ⟨ne_of_gt hpos, hpos⟩

/-- C6 counterexample: the claim — price, stopLoss and takeProfit are sent
only when present and non-zero, and an absent optional field is never
transmitted as an explicit zero — fails on the duplicate `executeTrade`: a
request with no price transmits `price: 0`. -/
theorem c6_counterexample :
    ("price", JSValue.num 0) ∈ executeTradeParams "tok" "EURUSD" "BUY" 1 none none none none :=
  .tail _ (.tail _ (.tail _ (.tail _ (.head _))))

/-- C6 (amended): the enhanced `sendOrder` transmits `price` / `stoploss` /
`takeprofit` exactly when the corresponding optional field is present and
positive (never as an explicit zero); the duplicate `executeTrade` instead
always transmits `price`, sending `0` when the field is absent. -/
theorem c6_optional_params :
    ∀ (tok : Option String) (sym : String) (r : OrderRequest),
      ((∀ v, ("price", v) ∈ sendOrderParams tok sym r →
          ∃ p, r.price = some p ∧ p > 0 ∧ v = .num p) ∧
        ∀ p, r.price = some p → p > 0 → ("price", .num p) ∈ sendOrderParams tok sym r) ∧
      ((∀ v, ("stoploss", v) ∈ sendOrderParams tok sym r →
          ∃ p, r.sl = some p ∧ p > 0 ∧ v = .num p) ∧
        ∀ p, r.sl = some p → p > 0 → ("stoploss", .num p) ∈ sendOrderParams tok sym r) ∧
      ((∀ v, ("takeprofit", v) ∈ sendOrderParams tok sym r →
          ∃ p, r.tp = some p ∧ p > 0 ∧ v = .num p) ∧
        ∀ p, r.tp = some p → p > 0 → ("takeprofit", .num p) ∈ sendOrderParams tok sym r) ∧
      ∀ (tok2 sym2 ty : String) (vol : ℚ) (sl tp : Option ℚ) (cm : Option String),
        ("price", .num 0) ∈ executeTradeParams tok2 sym2 ty vol none sl tp cm := by
  intro tok sym r
  refine ⟨⟨fun v hv => ?_, fun p hp hpos => ?_⟩, ⟨fun v hv => ?_, fun p hp hpos => ?_⟩,
    ⟨fun v hv => ?_, fun p hp hpos => ?_⟩, fun tok2 sym2 ty vol sl tp cm => ?_⟩
  · simp only [sendOrderParams, List.mem_append, List.mem_cons, List.not_mem_nil,
      Prod.mk.injEq, mem_optParamPos] at hv
    rcases hv with ((((h | h) | h) | h) | h)
    · simp at h
    · exact h.2
    · exact absurd h.1 (by decide)
    · exact absurd h.1 (by decide)
    · rcases hcm : r.comment with _ | c
      · simp [hcm, optParamStr] at h
      · by_cases hc : c = ""
        · simp [hcm, hc, optParamStr] at h
        · simp [hcm, hc, optParamStr] at h
  · exact List.mem_append.mpr (Or.inl (List.mem_append.mpr (Or.inl (List.mem_append.mpr
      (Or.inl (List.mem_append.mpr (Or.inr
        (mem_optParamPos.mpr ⟨rfl, p, hp, hpos, rfl⟩))))))))
  · simp only [sendOrderParams, List.mem_append, List.mem_cons, List.not_mem_nil,
      Prod.mk.injEq, mem_optParamPos] at hv
    rcases hv with ((((h | h) | h) | h) | h)
    · simp at h
    · exact absurd h.1 (by decide)
    · exact h.2
    · exact absurd h.1 (by decide)
    · rcases hcm : r.comment with _ | c
      · simp [hcm, optParamStr] at h
      · by_cases hc : c = ""
        · simp [hcm, hc, optParamStr] at h
        · simp [hcm, hc, optParamStr] at h
  · exact List.mem_append.mpr (Or.inl (List.mem_append.mpr (Or.inl (List.mem_append.mpr
      (Or.inr (mem_optParamPos.mpr ⟨rfl, p, hp, hpos, rfl⟩))))))
  · simp only [sendOrderParams, List.mem_append, List.mem_cons, List.not_mem_nil,
      Prod.mk.injEq, mem_optParamPos] at hv
    rcases hv with ((((h | h) | h) | h) | h)
    · simp at h
    · exact absurd h.1 (by decide)
    · exact absurd h.1 (by decide)
    · exact h.2
    · rcases hcm : r.comment with _ | c
      · simp [hcm, optParamStr] at h
      · by_cases hc : c = ""
        · simp [hcm, hc, optParamStr] at h
        · simp [hcm, hc, optParamStr] at h
  · exact List.mem_append.mpr (Or.inl (List.mem_append.mpr (Or.inr
      (mem_optParamPos.mpr ⟨rfl, p, hp, hpos, rfl⟩))))
  · exact List.mem_append_left _ (List.mem_append_left _ (List.mem_append_left _
      (.tail _ (.tail _ (.tail _ (.tail _ (.head _)))))))

/-- C6 witness: the amended theorem at concrete requests — a positive stop
loss is transmitted by `sendOrder`, and `executeTrade` with an absent price
transmits the explicit zero. -/
theorem c6_optional_params_witness :
    ("stoploss", JSValue.num 2) ∈
        sendOrderParams (some "tok") "EURUSD" ⟨"EURUSD", "BUY", 1, none, some 2, none, none⟩ ∧
      ("price", JSValue.num 0) ∈ executeTradeParams "tok" "GBPUSD" "SELL" 1 none none none none :=
  ⟨(c6_optional_params (some "tok") "EURUSD"
      ⟨"EURUSD", "BUY", 1, none, some 2, none, none⟩).2.1.2 2 rfl (by decide),
   (c6_optional_params (some "tok") "EURUSD"
      ⟨"EURUSD", "BUY", 1, none, some 2, none, none⟩).2.2.2 "tok" "GBPUSD" "SELL" 1
      none none none⟩

/-! ### C8 -/

/-- C8: the Response Normalizer `parseOrderResponse` is total and
deterministic.  Totality is rendered by the embedding: `parseOrderResponse`
is a total function over every decoded body shape (object, string, number,
boolean, null/undefined, array), so for every body a result exists — the
source performs no throwing operation on any branch.  Determinism: equal
inputs yield equal results. -/
theorem c8_normalizer_total_deterministic :
    ∀ (b : JSValue) (op : String),
      (∃ r : OrderResult, parseOrderResponse b op = r) ∧
        ∀ b2 : JSValue, b2 = b → parseOrderResponse b2 op = parseOrderResponse b op :=
  fun _ _ => ⟨⟨_, rfl⟩, fun _ h => by rw [h]⟩

/-- C8 witness: the theorem applied at a concrete body. -/
theorem c8_normalizer_total_deterministic_witness :
    parseOrderResponse (.bool true) "OrderClose" =
      parseOrderResponse (.bool true) "OrderClose" :=
  (c8_normalizer_total_deterministic (.bool true) "OrderClose").2 (.bool true) rfl

/-! ### C10 -/

/-- C10: in the simple duplicate `closePosition` implementations, any
delivered response yields `success = true` with retcode 10009 (the body is
read only for an optional `profit`, never to detect a bridge-side failure),
and a Failure outcome arises only when the HTTP call throws. -/
theorem c10_simple_close_ignores_body :
    ∀ (positionProfit ticket : ℚ) (volume : Option ℚ),
      (∀ (st : Nat) (body : JSValue),
        (closePositionSimple true positionProfit ticket volume (.resp st body)).success
            = true ∧
          (closePositionSimple true positionProfit ticket volume (.resp st body)).retcode
            = 10009) ∧
        ∀ out : HttpOutcome,
          (closePositionSimple true positionProfit ticket volume out).success = false →
            ∃ m c r, out = .err m c r := by
  intro positionProfit ticket volume
  refine ⟨fun st body => ⟨rfl, rfl⟩, fun out h => ?_⟩
  match out with
  | .resp st body => exact absurd h (by simp [closePositionSimple])
  | .err m c r => exact ⟨m, c, r, rfl⟩

/-- C10 witness: a delivered body that even carries an `error` field still
yields Success, and a thrown call yields the error shape. -/
theorem c10_simple_close_ignores_body_witness :
    (closePositionSimple true 0 5 none (.resp 200 (.obj [("error", .str "failed")]))).success
        = true ∧
      ∃ m c r, (.err "boom" none none : HttpOutcome) = HttpOutcome.err m c r :=
  ⟨((c10_simple_close_ignores_body 0 5 none).1 200 (.obj [("error", .str "failed")])).1,
   (c10_simple_close_ignores_body 0 5 none).2 (.err "boom" none none) rfl⟩

/-! ### C7 -/

/-- C7 counterexample: the claim says `disconnect()` always clears both
tokens and recreates the client, including when the server-side
invalidation request fails; but on a thrown `/Disconnect` call the catch
returns `false` with the in-memory token, the persisted token and the
client generation all unchanged. -/
theorem c7_counterexample :
    disconnectM ⟨some "tok", some "tok", 5⟩ (.err "Network Error" none none)
        = (⟨some "tok", some "tok", 5⟩, false) ∧
      getStoredToken
          (disconnectM ⟨some "tok", some "tok", 5⟩ (.err "Network Error" none none)).1
        = some "tok" := by
  exact ⟨rfl, rfl⟩

/-- C7 (amended): `disconnect()` clears both tokens and recreates the
transport client (returning `true`) when no token is held or when the
invalidation call completes; when a held token's invalidation call throws,
it returns `false` and leaves the token, the persisted token and the client
unchanged. -/
theorem c7_disconnect :
    ∀ (s : AdapterState) (out : HttpOutcome),
      (s.token = none →
        disconnectM s out = (⟨none, none, s.clientGen + 1⟩, true)) ∧
        (∀ st body, out = .resp st body →
          disconnectM s out = (⟨none, none, s.clientGen + 1⟩, true)) ∧
        ∀ t m c r, s.token = some t → out = .err m c r →
          disconnectM s out = (s, false) := by
  intro s out
  refine ⟨fun h => ?_, fun st body h => ?_, fun t m c r h1 h2 => ?_⟩
  · simp only [disconnectM, h]
  · match hs : s.token with
    | none => simp only [disconnectM, hs]
    | some t => simp only [disconnectM, hs, h]
  · simp only [disconnectM, h1, h2]

/-- C7 witness: the amended theorem applied at concrete states. -/
theorem c7_disconnect_witness :
    disconnectM ⟨some "t12345", some "t12345", 3⟩ (.resp 200 .null)
        = (⟨none, none, 4⟩, true) ∧
      disconnectM ⟨none, none, 7⟩ (.err "x" none none) = (⟨none, none, 8⟩, true) :=
  ⟨(c7_disconnect ⟨some "t12345", some "t12345", 3⟩ (.resp 200 .null)).2.1 200 .null rfl,
   (c7_disconnect ⟨none, none, 7⟩ (.err "x" none none)).1 rfl⟩

/-! ### C9: session-state effect lemmas -/

theorem clearTokenM_idem (s : AdapterState) :
    clearTokenM (clearTokenM s) = clearTokenM s := rfl

theorem subscribeSymbolM_state (s : AdapterState) (out : HttpOutcome) :
    (subscribeSymbolM s out).1 = s := by
  unfold subscribeSymbolM
  split
  · rfl
  · split <;> rfl

theorem getPositionsM_state (s : AdapterState) (out : HttpOutcome) :
    (getPositionsM s out).1 = s ∨ (getPositionsM s out).1 = clearTokenM s := by
  unfold getPositionsM
  split
  · exact Or.inl rfl
  · split
    · split
      · exact Or.inl rfl
      · exact Or.inl rfl
    · dsimp only
      split
      · exact Or.inr rfl
      · exact Or.inl rfl

theorem getSymbolsM_state (s : AdapterState) (out : HttpOutcome) :
    (getSymbolsM s out).1 = s ∨ (getSymbolsM s out).1 = clearTokenM s := by
  unfold getSymbolsM
  split
  · exact Or.inl rfl
  · split
    · split
      · exact Or.inl rfl
      · exact Or.inl rfl
    · dsimp only
      split
      · exact Or.inr rfl
      · exact Or.inl rfl

theorem getAccountInfoM_state (s : AdapterState) (a b : HttpOutcome) :
    (getAccountInfoM s a b).1 = s ∨ (getAccountInfoM s a b).1 = clearTokenM s := by
  unfold getAccountInfoM
  split
  · exact Or.inl rfl
  · split
    · split
      · exact Or.inr rfl
      · exact Or.inl rfl
    · split
      · exact Or.inl rfl
      · exact Or.inl rfl

theorem findMatchingSymbolM_state (s : AdapterState) (b : String) (out : HttpOutcome) :
    (findMatchingSymbolM s b out).1 = s ∨ (findMatchingSymbolM s b out).1 = clearTokenM s := by
  unfold findMatchingSymbolM
  split
  · exact Or.inl rfl
  · have hgs := getSymbolsM_state s out
    dsimp only
    split
    · exact hgs
    · exact hgs

theorem getQuoteM_state (s : AdapterState) (sym : String) (a b c : HttpOutcome) :
    (getQuoteM s sym a b c).1 = s ∨ (getQuoteM s sym a b c).1 = clearTokenM s := by
  unfold getQuoteM
  split
  · exact Or.inl rfl
  · rcases hp : findMatchingSymbolM s sym a with ⟨s1, msym⟩
    have h1 : s1 = s ∨ s1 = clearTokenM s := by
      have h2 := findMatchingSymbolM_state s sym a
      rw [hp] at h2
      exact h2
    simp only [hp]
    cases msym with
    | none =>
        dsimp only
        split
        · split
          · split
            · exact h1
            · exact h1
          · exact h1
        · dsimp only
          split
          · rcases h1 with h1 | h1 <;> rw [h1]
            · exact Or.inr rfl
            · exact Or.inr (clearTokenM_idem s)
          · exact h1
    | some v =>
        dsimp only
        rw [subscribeSymbolM_state]
        split
        · split
          · split
            · exact h1
            · exact h1
          · exact h1
        · dsimp only
          split
          · rcases h1 with h1 | h1 <;> rw [h1]
            · exact Or.inr rfl
            · exact Or.inr (clearTokenM_idem s)
          · exact h1

theorem sendOrderM_state (s : AdapterState) (r : OrderRequest) (a b c : HttpOutcome) :
    (sendOrderM s r a b c).1 = s ∨ (sendOrderM s r a b c).1 = clearTokenM s := by
  unfold sendOrderM
  split
  · exact Or.inl rfl
  · rcases hp : findMatchingSymbolM s r.symbol a with ⟨s1, msym⟩
    have h1 : s1 = s ∨ s1 = clearTokenM s := by
      have h2 := findMatchingSymbolM_state s r.symbol a
      rw [hp] at h2
      exact h2
    simp only [hp]
    cases msym with
    | none =>
        dsimp only
        split
        · split
          · exact h1
          · exact h1
        · dsimp only
          split
          · rcases h1 with h1 | h1 <;> rw [h1]
            · exact Or.inr rfl
            · exact Or.inr (clearTokenM_idem s)
          · exact h1
    | some v =>
        dsimp only
        rw [subscribeSymbolM_state]
        split
        · split
          · exact h1
          · exact h1
        · dsimp only
          split
          · rcases h1 with h1 | h1 <;> rw [h1]
            · exact Or.inr rfl
            · exact Or.inr (clearTokenM_idem s)
          · exact h1

theorem closePositionProbe_state (s1 : AdapterState) (ticket : ℚ) (vol : Option ℚ)
    (pd : Option Position) (attempts : Nat → HttpOutcome) :
    (closePositionProbe s1 ticket vol pd attempts).1 = s1 ∨
      (closePositionProbe s1 ticket vol pd attempts).1 = clearTokenM s1 := by
  unfold closePositionProbe
  dsimp only
  split
  · exact Or.inl rfl
  · exact Or.inr rfl
  · exact Or.inl rfl

theorem closePositionM_state (s : AdapterState) (ticket : ℚ) (vol : Option ℚ)
    (posOut : HttpOutcome) (attempts : Nat → HttpOutcome) :
    (closePositionM s ticket vol posOut attempts).1 = s ∨
      (closePositionM s ticket vol posOut attempts).1 = clearTokenM s := by
  unfold closePositionM
  split
  · exact Or.inl rfl
  · have hgp := getPositionsM_state s posOut
    dsimp only
    have hpr : ∀ pd, ((closePositionProbe (getPositionsM s posOut).1 ticket vol pd attempts).1 = s ∨
        (closePositionProbe (getPositionsM s posOut).1 ticket vol pd attempts).1
          = clearTokenM s) := by
      intro pd
      rcases closePositionProbe_state (getPositionsM s posOut).1 ticket vol pd attempts with
        h2 | h2 <;> rw [h2]
      · exact hgp
      · rcases hgp with h3 | h3 <;> rw [h3]
        · exact Or.inr rfl
        · exact Or.inr (clearTokenM_idem s)
    split
    · split
      · exact hgp
      · exact hpr _
    · exact hpr _

theorem storeTokenM_eq_set (s : AdapterState) (t : String) (h : t ≠ "") :
    storeTokenM s t = setTokenM s t := by
  simp [storeTokenM, setTokenM, h]

theorem validTokenField_length {fields : List (String × JSValue)} {t : String}
    (h : validTokenField fields = some t) : 10 < t.length := by
  unfold validTokenField at h
  split at h
  · split at h
    · rename_i hcond
      injection h with he
      subst he
      exact hcond.1
    · exact absurd h (by simp)
  · exact absurd h (by simp)

theorem firstTokenField_length {fields : List (String × JSValue)} {t : String}
    (h : firstTokenField fields = some t) : 10 < t.length := by
  unfold firstTokenField at h
  rcases hl : List.filterMap (fun k =>
      match lookupField fields k with
      | some (.str u) => if u.length > 10 then some u else none
      | _ => none) ["id", "sessionId", "connectionId", "accessToken"] with _ | ⟨a, rest⟩
  · rw [hl] at h
    exact absurd h (by simp)
  · rw [hl] at h
    have hmem : t ∈ List.filterMap (fun k =>
        match lookupField fields k with
        | some (.str u) => if u.length > 10 then some u else none
        | _ => none) ["id", "sessionId", "connectionId", "accessToken"] := by
      rw [hl]
      have he : some a = some t := h
      injection he with he2
      rw [← he2]
      exact List.mem_cons_self a rest
    obtain ⟨k, _, hfk⟩ := List.mem_filterMap.mp hmem
    split at hfk
    · split at hfk
      · rename_i hcond
        injection hfk with he2
        subst he2
        exact hcond
      · exact absurd hfk (by simp)
    · exact absurd hfk (by simp)

theorem length_pos_ne_empty {t : String} (h : 10 < t.length) : t ≠ "" := by
  intro he
  subst he
  simp at h

theorem connectM_state (s : AdapterState) (out : HttpOutcome) :
    (connectM s out).1 = s ∨ ∃ t, (connectM s out).1 = setTokenM s t := by
  rcases out with ⟨st, body⟩ | _
  · by_cases hok : ok2xx st = true
    · cases body with
      | obj fields =>
          simp only [connectM, if_pos hok]
          rcases hvt : validTokenField fields with _ | t
          · simp only [hvt]
            split
            · exact Or.inl rfl
            · split
              · split
                · rcases hft : firstTokenField fields with _ | t
                  · simp only [hft]
                    exact Or.inl trivial
                  · simp only [hft]
                    exact Or.inr ⟨t, storeTokenM_eq_set s t
                      (length_pos_ne_empty (firstTokenField_length hft))⟩
                · exact Or.inl rfl
              · exact Or.inl rfl
          · simp only [hvt]
            exact Or.inr ⟨t, storeTokenM_eq_set s t
              (length_pos_ne_empty (validTokenField_length hvt))⟩
      | str t =>
          simp only [connectM, if_pos hok]
          split
          · exact Or.inl rfl
          · split
            · rename_i hlen
              exact Or.inr ⟨t, storeTokenM_eq_set s t
                (length_pos_ne_empty (by exact_mod_cast hlen))⟩
            · exact Or.inl rfl
      | num q =>
          simp only [connectM, if_pos hok]
          split
          · exact Or.inr ⟨toString q, rfl⟩
          · exact Or.inl rfl
      | undef =>
          simp only [connectM, if_pos hok]
          exact Or.inl trivial
      | null =>
          simp only [connectM, if_pos hok]
          exact Or.inl trivial
      | bool b =>
          simp only [connectM, if_pos hok]
          exact Or.inl trivial
      | arr l =>
          simp only [connectM, if_pos hok]
          exact Or.inl trivial
    · left
      simp only [connectM, if_neg hok]
  · exact Or.inl rfl

theorem tokenStoreAgreeUpTo_clear (s : AdapterState) :
    tokenStoreAgreeUpTo (clearTokenM s) := Or.inl rfl

theorem tokenStoreAgreeUpTo_set (s : AdapterState) (t : String) :
    tokenStoreAgreeUpTo (setTokenM s t) := Or.inl rfl

theorem tokenStoreAgreeUpTo_construct (s : AdapterState) :
    tokenStoreAgreeUpTo (constructM s) := by
  rcases hs : s.store with _ | t
  · left
    simp [constructM, hs]
  · by_cases ht : t = ""
    · right
      subst ht
      simp [constructM, hs]
    · left
      simp [constructM, hs, ht]

/-! ### C9 -/

/-- C9 counterexample: the claimed invariant — after any public method the
in-memory token and the persisted `mt5_token` value are both absent or both
the same string — fails at construction over a persisted empty string: the
constructor treats the falsy `""` as no stored token and leaves the
in-memory token absent while the key still holds `""` (reachable, since
`setToken("")` establishes the agreeing state `(some "", some "")`). -/
theorem c9_counterexample :
    tokenStoreAgree ⟨some "", some "", 0⟩ ∧
      ¬ tokenStoreAgree (stepState ⟨some "", some "", 0⟩ .construct) := by
  constructor
  · rfl
  · intro h
    simp [stepState, constructM, tokenStoreAgree] at h

/-- C9 (amended): after any public method of the enhanced adapter
(construction, connect, disconnect, checkConnection, the read and trade
operations, setToken, clearToken), the in-memory token and the persisted
`mt5_token` value agree — both absent or both the same string — except that
the persisted value may be the empty string while the in-memory token is
absent (an empty persisted token is falsy and is not restored by the
constructor).  This weakened agreement is an invariant of every method. -/
theorem c9_token_store_invariant :
    ∀ (s : AdapterState) (m : MethodCall),
      tokenStoreAgreeUpTo s → tokenStoreAgreeUpTo (stepState s m) := by
  intro s m h
  have hclear : ∀ s2 : AdapterState,
      s2 = s ∨ s2 = clearTokenM s → tokenStoreAgreeUpTo s2 := by
    intro s2 h2
    rcases h2 with h2 | h2 <;> rw [h2]
    · exact h
    · exact tokenStoreAgreeUpTo_clear s
  cases m with
  | construct => exact tokenStoreAgreeUpTo_construct s
  | connect out =>
      rcases connectM_state s out with h1 | ⟨t, h1⟩
      · rw [stepState, h1]
        exact h
      · rw [stepState, h1]
        exact tokenStoreAgreeUpTo_set s t
  | disconnect out =>
      rw [stepState]
      unfold disconnectM
      split
      · exact Or.inl rfl
      · split
        · exact Or.inl rfl
        · exact h
  | checkConnection out => exact h
  | getAccountInfo a b => exact hclear _ (getAccountInfoM_state s a b)
  | getSymbols out => exact hclear _ (getSymbolsM_state s out)
  | subscribeSymbol out =>
      rw [stepState, subscribeSymbolM_state]
      exact h
  | findMatchingSymbol b out => exact hclear _ (findMatchingSymbolM_state s b out)
  | getPositions out => exact hclear _ (getPositionsM_state s out)
  | getQuote sym a b c => exact hclear _ (getQuoteM_state s sym a b c)
  | sendOrder r a b c => exact hclear _ (sendOrderM_state s r a b c)
  | closePosition t v p att => exact hclear _ (closePositionM_state s t v p att)
  | setToken t => exact tokenStoreAgreeUpTo_set s t
  | clearToken => exact tokenStoreAgreeUpTo_clear s

/-- C9 witness: the amended invariant applied at a concrete agreeing state
through a `clearToken` call. -/
theorem c9_token_store_invariant_witness :
    tokenStoreAgreeUpTo (stepState ⟨some "tok", some "tok", 0⟩ .clearToken) :=
  c9_token_store_invariant ⟨some "tok", some "tok", 0⟩ .clearToken (Or.inl rfl)

/-! ### C1: candidate-list and probe lemmas -/

theorem near_eq_false_iff (a b : ℚ) : near a b = false ↔ ¬ |a - b| < tol := by
  rw [← near_iff]
  cases near a b <;> simp

theorem addScaledEntry_length (acc : List VolumeFormatEntry) (v : ℚ) (d : String) :
    (addScaledEntry acc v d).length ≤ acc.length + 1 := by
  unfold addScaledEntry
  split
  · simp
  · exact Nat.le_succ _

theorem addScaledEntry_extends (acc : List VolumeFormatEntry) (v : ℚ) (d : String) :
    acc <+: addScaledEntry acc v d := by
  unfold addScaledEntry
  split
  · exact ⟨_, rfl⟩
  · exact ⟨[], List.append_nil _⟩

theorem foldl_addScaled_length {α : Type} (g : α → ℚ) (d : α → String) :
    ∀ (l : List α) (acc : List VolumeFormatEntry),
      (l.foldl (fun a x => addScaledEntry a (g x) (d x)) acc).length ≤
        acc.length + l.length := by
  intro l
  induction l with
  | nil => intro acc; simp
  | cons x xs ih =>
      intro acc
      have h1 := ih (addScaledEntry acc (g x) (d x))
      have h2 := addScaledEntry_length acc (g x) (d x)
      simp only [List.foldl_cons, List.length_cons]
      omega

theorem foldl_addScaled_extends {α : Type} (g : α → ℚ) (d : α → String) :
    ∀ (l : List α) (acc : List VolumeFormatEntry),
      acc <+: l.foldl (fun a x => addScaledEntry a (g x) (d x)) acc := by
  intro l
  induction l with
  | nil => intro acc; exact ⟨[], List.append_nil _⟩
  | cons x xs ih =>
      intro acc
      simp only [List.foldl_cons]
      exact (addScaledEntry_extends acc (g x) (d x)).trans (ih _)

theorem volHead_length (vol : Option ℚ) : (volHead vol).length ≤ 1 := by
  unfold volHead
  split
  · split <;> simp
  · simp

theorem withLots_length (p : Position) (l : List VolumeFormatEntry) :
    (withLots p l).length ≤ l.length + 1 := by
  unfold withLots
  split
  · simp
  · exact Nat.le_succ _

theorem withRaw_length (p : Position) (l : List VolumeFormatEntry) :
    (withRaw p l).length ≤ l.length + 1 := by
  unfold withRaw
  split
  · simp
  · exact Nat.le_succ _

theorem withScaled_length (p : Position) (l : List VolumeFormatEntry) :
    (withScaled p l).length ≤ l.length + 10 := by
  unfold withScaled
  split
  · have h := foldl_addScaled_length (fun fd : ℚ × String => qMul p.volume fd.1)
      (fun fd : ℚ × String => fd.2) scalingFactors l
    have h2 : scalingFactors.length = 10 := rfl
    omega
  · omega

theorem withRawScaled_length (p : Position) (l : List VolumeFormatEntry) :
    (withRawScaled p l).length ≤ l.length + 6 := by
  unfold withRawScaled
  split
  · have h := foldl_addScaled_length (fun f : ℚ => qMul p.rawVolume f)
      (fun f : ℚ => "Raw volume × " ++ toString f) rawScalingFactors l
    have h2 : rawScalingFactors.length = 6 := rfl
    omega
  · omega

theorem withRaw_extends (p : Position) (l : List VolumeFormatEntry) :
    l <+: withRaw p l := by
  unfold withRaw
  split
  · exact ⟨_, rfl⟩
  · exact ⟨[], List.append_nil _⟩

theorem withScaled_extends (p : Position) (l : List VolumeFormatEntry) :
    l <+: withScaled p l := by
  unfold withScaled
  split
  · exact foldl_addScaled_extends _ _ scalingFactors l
  · exact ⟨[], List.append_nil _⟩

theorem withRawScaled_extends (p : Position) (l : List VolumeFormatEntry) :
    l <+: withRawScaled p l := by
  unfold withRawScaled
  split
  · exact foldl_addScaled_extends _ _ rawScalingFactors l
  · exact ⟨[], List.append_nil _⟩

theorem buildVolumeFormats_length (vol : Option ℚ) (pd : Option Position) :
    (buildVolumeFormats vol pd).length ≤ 19 := by
  unfold buildVolumeFormats
  dsimp only
  split
  · simp [fallbackVolumes]
  · rcases pd with _ | p
    · dsimp only
      have := volHead_length vol
      omega
    · dsimp only
      have h0 := volHead_length vol
      have h1 := withLots_length p (volHead vol)
      have h2 := withRaw_length p (withLots p (volHead vol))
      have h3 := withScaled_length p (withRaw p (withLots p (volHead vol)))
      have h4 := withRawScaled_length p (withScaled p (withRaw p (withLots p (volHead vol))))
      omega

theorem dedupFormats_length (l : List VolumeFormatEntry) :
    (dedupFormats l).length ≤ l.length := by
  unfold dedupFormats
  rw [List.length_map]
  calc (List.filter _ l.enum).length ≤ l.enum.length := List.length_filter_le _ _
    _ = l.length := List.enum_length

theorem findIdx_le_of_pred {α : Type} {p : α → Bool} {l : List α} {i : Nat}
    (hi : i < l.length) (h : p l[i] = true) : l.findIdx p ≤ i := by
  by_contra hlt
  push_neg at hlt
  exact absurd h (by simp [List.not_of_lt_findIdx hlt])

theorem mem_enum_getElem {α : Type} {l : List α} {q : Nat × α} (h : q ∈ l.enum) :
    ∃ hq : q.1 < l.length, l[q.1] = q.2 := by
  obtain ⟨n, hn, he⟩ := List.mem_iff_getElem.mp h
  rw [List.enum_length] at hn
  rw [List.getElem_enum] at he
  rcases q with ⟨qi, qa⟩
  injection he with he1 he2
  subst he1
  exact ⟨hn, he2⟩

theorem dedupFormats_pairwise (l : List VolumeFormatEntry) :
    (dedupFormats l).Pairwise (fun a b => near a.value b.value = false) := by
  unfold dedupFormats
  rw [List.pairwise_map]
  have henum : l.enum.Pairwise (fun a b => a.1 < b.1) := by
    rw [List.pairwise_iff_getElem]
    intro i j hi hj hij
    have hi2 : i < l.length := by rw [← List.enum_length]; exact hi
    have hj2 : j < l.length := by rw [← List.enum_length]; exact hj
    rw [List.getElem_enum, List.getElem_enum]
    exact hij
  have hfil : (l.enum.filter
      (fun q => l.findIdx (fun g => near g.value q.2.value) == q.1)).Pairwise
        (fun a b => a.1 < b.1) :=
    List.Pairwise.sublist (List.filter_sublist _) henum
  refine List.Pairwise.imp_of_mem ?_ hfil
  intro a b ha hb hab
  obtain ⟨hmema, hPa⟩ := List.mem_filter.mp ha
  obtain ⟨hmemb, hPb⟩ := List.mem_filter.mp hb
  obtain ⟨hia, hga⟩ := mem_enum_getElem hmema
  by_contra hne
  have htrue : near a.2.value b.2.value = true := by
    cases hbool : near a.2.value b.2.value
    · exact absurd hbool hne
    · rfl
  have hPb2 : l.findIdx (fun g => near g.value b.2.value) = b.1 := by simpa using hPb
  have hle : l.findIdx (fun g => near g.value b.2.value) ≤ a.1 :=
    findIdx_le_of_pred hia (by rw [hga]; exact htrue)
  omega

theorem dedupFormats_mem_of_findIdx {l : List VolumeFormatEntry} {i : Nat}
    (hi : i < l.length)
    (h : l.findIdx (fun g => near g.value l[i].value) = i) :
    l[i] ∈ dedupFormats l := by
  unfold dedupFormats
  refine List.mem_map.mpr ⟨(i, l[i]), List.mem_filter.mpr ⟨?_, ?_⟩, rfl⟩
  · have hi2 : i < l.enum.length := by rw [List.enum_length]; exact hi
    have hmem := List.getElem_mem hi2
    rw [List.getElem_enum] at hmem
    exact hmem
  · simp [h]

theorem buildVolumeFormats_keeps_lots (vol : Option ℚ) (p : Position)
    (hv : p.volume > 0) :
    ∃ suffix, buildVolumeFormats vol (some p) =
      volHead vol ++ ⟨p.volume, "Position lots volume"⟩ :: suffix := by
  have h1 : withLots p (volHead vol) =
      volHead vol ++ [⟨p.volume, "Position lots volume"⟩] := by
    unfold withLots
    rw [if_pos hv]
  have hc : withLots p (volHead vol) <+:
      withRawScaled p (withScaled p (withRaw p (withLots p (volHead vol)))) :=
    (withRaw_extends p _).trans ((withScaled_extends p _).trans (withRawScaled_extends p _))
  rw [h1] at hc
  obtain ⟨suffix, hsuf⟩ := hc
  refine ⟨suffix, ?_⟩
  unfold buildVolumeFormats
  dsimp only
  rw [h1, if_neg (by rw [← hsuf]; simp)]
  rw [← hsuf]
  simp

theorem volHead_shape (vol : Option ℚ) :
    volHead vol = [] ∨
      ∃ w, volHead vol = [⟨w, "Provided volume"⟩] ∧ vol = some w ∧ w > 0 := by
  rcases vol with _ | v
  · exact Or.inl rfl
  · by_cases hc : v ≠ 0 ∧ v > 0
    · right
      refine ⟨v, ?_, rfl, hc.2⟩
      unfold volHead
      dsimp only
      rw [if_pos hc]
    · left
      unfold volHead
      dsimp only
      rw [if_neg hc]

theorem dedupFormats_mem_head (e : VolumeFormatEntry) (rest : List VolumeFormatEntry) :
    e ∈ dedupFormats (e :: rest) := by
  have h0 : (e :: rest).findIdx (fun g => near g.value (e :: rest)[0].value) = 0 := by
    refine (List.findIdx_eq (by simp)).mpr ⟨?_, fun j hj => absurd hj (Nat.not_lt_zero j)⟩
    simpa using near_self e.value
  simpa using dedupFormats_mem_of_findIdx (l := e :: rest) (i := 0) (by simp) h0

theorem dedupFormats_mem_second (a e : VolumeFormatEntry) (rest : List VolumeFormatEntry)
    (hne : near a.value e.value = false) : e ∈ dedupFormats (a :: e :: rest) := by
  have h1 : (a :: e :: rest).findIdx
      (fun g => near g.value (a :: e :: rest)[1].value) = 1 := by
    refine (List.findIdx_eq (by simp)).mpr ⟨?_, fun j hj => ?_⟩
    · simpa using near_self e.value
    · have hj0 : j = 0 := by omega
      subst hj0
      simpa using hne
  simpa using dedupFormats_mem_of_findIdx (l := a :: e :: rest) (i := 1) (by simp) h1

theorem uniqueFormats_keeps_lots (vol : Option ℚ) (p : Position) (hv : p.volume > 0)
    (hnc : ∀ w, vol = some w → ¬ |w - p.volume| < tol) :
    (⟨p.volume, "Position lots volume"⟩ : VolumeFormatEntry) ∈ uniqueFormats vol (some p) := by
  obtain ⟨suffix, hb⟩ := buildVolumeFormats_keeps_lots vol p hv
  unfold uniqueFormats
  rcases volHead_shape vol with hvh | ⟨w, hvh, hvw, hwpos⟩
  · rw [hvh] at hb
    simp only [List.nil_append] at hb
    rw [hb]
    exact dedupFormats_mem_head _ suffix
  · rw [hvh] at hb
    simp only [List.cons_append, List.nil_append] at hb
    rw [hb]
    refine dedupFormats_mem_second _ _ suffix ?_
    rw [near_eq_false_iff]
    exact hnc w hvw

theorem uniqueFormats_near_lots (vol : Option ℚ) (p : Position) (hv : p.volume > 0) :
    ∃ f ∈ uniqueFormats vol (some p), |f.value - p.volume| < tol := by
  obtain ⟨suffix, hb⟩ := buildVolumeFormats_keeps_lots vol p hv
  rcases volHead_shape vol with hvh | ⟨w, hvh, hvw, hwpos⟩
  · refine ⟨⟨p.volume, "Position lots volume"⟩, ?_, by simpa using tol_pos⟩
    unfold uniqueFormats
    rw [hvh] at hb
    simp only [List.nil_append] at hb
    rw [hb]
    exact dedupFormats_mem_head _ suffix
  · rw [hvh] at hb
    simp only [List.cons_append, List.nil_append] at hb
    by_cases hw : |w - p.volume| < tol
    · refine ⟨⟨w, "Provided volume"⟩, ?_, hw⟩
      unfold uniqueFormats
      rw [hb]
      exact dedupFormats_mem_head _ _
    · refine ⟨⟨p.volume, "Position lots volume"⟩, ?_, by simpa using tol_pos⟩
      unfold uniqueFormats
      rw [hb]
      refine dedupFormats_mem_second _ _ suffix ?_
      rw [near_eq_false_iff]
      exact hw

theorem attemptStep_success (ticket : ℚ) (f : VolumeFormatEntry) (i st : Nat)
    (body : JSValue) (hok : ok2xx st = true)
    (hret : (parseOrderResponse body "OrderClose").retcode = 10009)
    (hac : ¬((parseOrderResponse body "OrderClose").comment ≠ "" ∧
      anyContains (parseOrderResponse body "OrderClose").comment
        alreadyClosedPatterns = true))
    (hiv : ¬((parseOrderResponse body "OrderClose").comment ≠ "" ∧
      anyContains (parseOrderResponse body "OrderClose").comment
        invalidVolumePatterns = true)) :
    attemptStep ticket f i (.resp st body) =
      .stop ⟨10009, some (jsOrQ (parseOrderResponse body "OrderClose").order ticket),
        jsOrStr (parseOrderResponse body "OrderClose").comment "Position closed successfully",
        some f.value, some (i + 1), some f.description⟩ := by
  unfold attemptStep
  dsimp only
  rw [if_pos hok, if_neg hac, if_neg hiv, if_pos hret]

theorem probeLoop_stops (tok : Option String) (ticket : ℚ) (attempts : Nat → HttpOutcome) :
    ∀ (fmts : List VolumeFormatEntry) (i0 k : Nat) (hk : k < fmts.length) (o : CloseOutcome),
      (∀ j, (hj : j < k) → attemptStep ticket (fmts.get ⟨j, Nat.lt_trans hj hk⟩) (i0 + j)
        (attempts (i0 + j)) = .next) →
      attemptStep ticket (fmts.get ⟨k, hk⟩) (i0 + k) (attempts (i0 + k)) = .stop o →
      probeLoop tok ticket attempts fmts i0 =
        ((fmts.take (k + 1)).map (mkCloseReq tok ticket), .stopped o) := by
  intro fmts
  induction fmts with
  | nil =>
      intro i0 k hk
      exact absurd hk (by simp)
  | cons f rest ih =>
      intro i0 k hk o hnext hstop
      cases k with
      | zero =>
          have h0 : attemptStep ticket f i0 (attempts i0) = .stop o := by
            simpa using hstop
          simp only [probeLoop, h0, List.take_succ_cons, List.take_zero, List.map_cons,
            List.map_nil]
      | succ k2 =>
          have h0 : attemptStep ticket f i0 (attempts i0) = .next := by
            simpa using hnext 0 (Nat.succ_pos k2)
          have hk2 : k2 < rest.length := Nat.lt_of_succ_lt_succ hk
          have ih2 := ih (i0 + 1) k2 hk2 o
            (fun j hj => by
              have hx := hnext (j + 1) (Nat.succ_lt_succ hj)
              rw [show i0 + 1 + j = i0 + (j + 1) by omega]
              exact hx)
            (by
              have hx := hstop
              rw [show i0 + 1 + k2 = i0 + (k2 + 1) by omega]
              exact hx)
          simp only [probeLoop, h0, ih2, List.take_succ_cons, List.map_cons]

/-! ### C1 -/

/-- C1 counterexample: the claim says the candidate list always contains
the display volume V itself; but with display volume V = 1 and a positive
caller-supplied volume within 1e-6 of it (1 + 1/2000000), the final dedup
pass drops V in favour of the caller's value, so no candidate equals V. -/
theorem c1_counterexample :
    fixturePosVol1.volume > 0 ∧ (mkRat 2000001 2000000 : ℚ) > 0 ∧
      ¬ ∃ f ∈ uniqueFormats (some (mkRat 2000001 2000000)) (some fixturePosVol1),
          f.value = fixturePosVol1.volume := by
  decide

/-- C1 (amended): for every position with display volume V > 0 and any
caller-supplied volume, the candidate list `uniqueFormats` is finite (at
most 19 entries), any two entries differ by at least 1e-6, some entry lies
within 1e-6 of V — V itself whenever the caller-supplied volume is absent
or at least 1e-6 away from V — and the probe tries candidates strictly in
list order: as long as each attempt yields "try the next candidate", the
next candidate in order is issued, and the first candidate whose attempt
stops (in particular a delivered 2xx response classified Success whose
comment matches neither the already-closed nor the invalid-volume patterns,
which stops with retcode 10009 and `volumeUsed` naming that candidate)
terminates the probe, having issued exactly the requests for the candidates
up to and including it. -/
theorem c1_volume_probe :
    ∀ (vol : Option ℚ) (p : Position), p.volume > 0 →
      (uniqueFormats vol (some p)).length ≤ 19 ∧
      (uniqueFormats vol (some p)).Pairwise (fun a b => ¬ |a.value - b.value| < tol) ∧
      (∃ f ∈ uniqueFormats vol (some p), |f.value - p.volume| < tol) ∧
      (vol = none → ∃ f ∈ uniqueFormats vol (some p), f.value = p.volume) ∧
      (∀ w, vol = some w → ¬ |w - p.volume| < tol →
        ∃ f ∈ uniqueFormats vol (some p), f.value = p.volume) ∧
      (∀ (tok : Option String) (ticket : ℚ) (attempts : Nat → HttpOutcome)
        (k : Nat) (hk : k < (uniqueFormats vol (some p)).length) (o : CloseOutcome),
        (∀ j, (hj : j < k) → attemptStep ticket
          ((uniqueFormats vol (some p)).get ⟨j, Nat.lt_trans hj hk⟩) j (attempts j) = .next) →
        attemptStep ticket ((uniqueFormats vol (some p)).get ⟨k, hk⟩) k (attempts k)
          = .stop o →
        probeLoop tok ticket attempts (uniqueFormats vol (some p)) 0 =
          (((uniqueFormats vol (some p)).take (k + 1)).map (mkCloseReq tok ticket),
            .stopped o)) ∧
      ∀ (ticket : ℚ) (f : VolumeFormatEntry) (i st : Nat) (body : JSValue),
        ok2xx st = true →
        (parseOrderResponse body "OrderClose").retcode = 10009 →
        ¬((parseOrderResponse body "OrderClose").comment ≠ "" ∧
          anyContains (parseOrderResponse body "OrderClose").comment
            alreadyClosedPatterns = true) →
        ¬((parseOrderResponse body "OrderClose").comment ≠ "" ∧
          anyContains (parseOrderResponse body "OrderClose").comment
            invalidVolumePatterns = true) →
        attemptStep ticket f i (.resp st body) =
          .stop ⟨10009, some (jsOrQ (parseOrderResponse body "OrderClose").order ticket),
            jsOrStr (parseOrderResponse body "OrderClose").comment
              "Position closed successfully",
            some f.value, some (i + 1), some f.description⟩ := by
  intro vol p hv
  refine ⟨?_, ?_, uniqueFormats_near_lots vol p hv, ?_, ?_, ?_, ?_⟩
  · exact le_trans (dedupFormats_length _) (buildVolumeFormats_length vol (some p))
  · have hp := dedupFormats_pairwise (buildVolumeFormats vol (some p))
    refine hp.imp ?_
    intro a b hab
    rw [near_eq_false_iff] at hab
    exact hab
  · intro hnone
    refine ⟨⟨p.volume, "Position lots volume"⟩, ?_, rfl⟩
    exact uniqueFormats_keeps_lots vol p hv (fun w hw => by rw [hnone] at hw; cases hw)
  · intro w hw hfar
    refine ⟨⟨p.volume, "Position lots volume"⟩, ?_, rfl⟩
    refine uniqueFormats_keeps_lots vol p hv ?_
    intro w2 hw2
    rw [hw] at hw2
    injection hw2 with he
    rw [← he]
    exact hfar
  · intro tok ticket attempts k hk o hnext hstop
    have := probeLoop_stops tok ticket attempts (uniqueFormats vol (some p)) 0 k hk o
      (fun j hj => by simpa using hnext j hj) (by simpa using hstop)
    exact this
  · intro ticket f i st body hok hret hac hiv
    exact attemptStep_success ticket f i st body hok hret hac hiv

/-- C1 witness: the amended theorem applied to a position with display
volume 0.01 and no caller-supplied volume; additionally, a concrete probe
run whose first candidate is answered with the ticket string `"10009"`
stops after exactly one issued request with that candidate as
`volumeUsed`. -/
theorem c1_volume_probe_witness :
    (uniqueFormats none (some ⟨1, "EURUSD", "Buy", mkRat 1 100, 1, 0, 0, 5, 0, 0, "", ""⟩)).length
        ≤ 19 ∧
      (∃ f ∈ uniqueFormats none (some ⟨1, "EURUSD", "Buy", mkRat 1 100, 1, 0, 0, 5, 0, 0, "", ""⟩),
        f.value = (⟨1, "EURUSD", "Buy", mkRat 1 100, 1, 0, 0, 5, 0, 0, "", ""⟩ : Position).volume) ∧
      (closePositionM ⟨some "tok", some "tok", 0⟩ 1 none (.resp 200 fixturePosBody)
          (fun _ => .resp 200 (.str "10009"))).2.1.volumeUsed = some (mkRat 1 100) ∧
      (closePositionM ⟨some "tok", some "tok", 0⟩ 1 none (.resp 200 fixturePosBody)
          (fun _ => .resp 200 (.str "10009"))).2.2.length = 1 :=
  ⟨(c1_volume_probe none ⟨1, "EURUSD", "Buy", mkRat 1 100, 1, 0, 0, 5, 0, 0, "", ""⟩
      (by decide)).1,
   (c1_volume_probe none ⟨1, "EURUSD", "Buy", mkRat 1 100, 1, 0, 0, 5, 0, 0, "", ""⟩
      (by decide)).2.2.2.1 rfl,
   by decide, by decide⟩

end MT5
